import Mathlib

/-!
# FawryTask e-commerce checkout: a shallow embedding of `Project36/Source.cpp`

The C++ program keeps its products, its customer and its cart in objects that
are mutated in place and signals failures by throwing `Exception`.  The
embedding makes all of that explicit:

* every method returns the pair of the exception it threw (`none` when it
  returned normally) and the state it left behind, so that effects performed
  before a `throw` stay visible;
* `Product*` is an address into a heap of products, so two cart lines may
  share one product;
* `time(nullptr)` is an explicit argument `now`;
* `cout <<` appends tokens to an output list (numbers are kept as numbers,
  their decimal rendering is not modelled);
* `int` is a 32-bit two's complement integer: the one `int` subtraction of the
  program, in `reduceQuantity`, wraps modulo `2 ^ 32` (C++ leaves signed
  overflow undefined; the embedding gives it the result the hardware computes);
* `double` is a binary64 value: a finite number, an infinity or NaN.  Every
  operation rounds to nearest with ties to even, to 53 significant bits and
  no bit below `2 ^ -1074`, and overflows to an infinity from `2 ^ 1024` on.
  The two zeros are one value.
-/

namespace FawryTask

/-! ## `double` -/

/-- A finite binary value `m * 2 ^ e`.  The results of the operations below are
in canonical form: `m` is odd, or `m = 0` and `e = 0`. -/
structure Dyadic where
  m : Int
  e : Int
deriving DecidableEq, Repr

namespace Dyadic

/-- Number of binary digits of `n`, by halving at most `fuel` times. -/
def bitLen : Nat → Nat → Nat
  | 0, _ => 0
  | f + 1, n => if n = 0 then 0 else bitLen f (n / 2) + 1

/-- Number of binary digits of `n` (`0` for `0`). -/
def size (n : Nat) : Nat := bitLen n n

/-- The integer nearest to `n / d`, ties going to the even one (`0 < d`). -/
def roundDiv (n : Int) (d : Nat) : Int :=
  let q := n / (d : Int)
  let r := n % (d : Int)
  if 2 * r < (d : Int) then q
  else if (d : Int) < 2 * r then q + 1
  else if q % 2 = 0 then q else q + 1

/-- Move factors of two from the significand to the exponent. -/
def stripAux : Nat → Int → Int → Dyadic
  | 0, m, e => ⟨m, e⟩
  | f + 1, m, e => if m % 2 = 0 then stripAux f (m / 2) (e + 1) else ⟨m, e⟩

/-- Canonical form of `m * 2 ^ e`. -/
def canon (m e : Int) : Dyadic :=
  if m = 0 then ⟨0, 0⟩ else stripAux m.natAbs m e

/-- Round the exact value `m * 2 ^ e` to the binary64 grid: at most 53
significant bits and no bit below `2 ^ -1074` (gradual underflow). -/
def round53 (m e : Int) : Dyadic :=
  let s := max (size m.natAbs - 53) (-1074 - e).toNat
  canon (roundDiv m (2 ^ s)) (e + (s : Int))

/-- The rounded sum. -/
def add (a b : Dyadic) : Dyadic :=
  let e := min a.e b.e
  round53 (a.m * 2 ^ (a.e - e).toNat + b.m * 2 ^ (b.e - e).toNat) e

/-- The rounded difference. -/
def sub (a b : Dyadic) : Dyadic :=
  let e := min a.e b.e
  round53 (a.m * 2 ^ (a.e - e).toNat - b.m * 2 ^ (b.e - e).toNat) e

/-- The rounded product. -/
def mul (a b : Dyadic) : Dyadic := round53 (a.m * b.m) (a.e + b.e)

/-- The rounded quotient, for a divisor other than zero. -/
def div (a b : Dyadic) : Dyadic :=
  if b.m = 0 ∨ a.m = 0 then ⟨0, 0⟩ else
  let n : Int := if 0 < b.m then a.m else -a.m
  let d : Nat := b.m.natAbs
  let s0 : Int := 53 + (size d : Int) - (size n.natAbs : Int)
  let s1 : Int :=
    if (d : Int) * 2 ^ (53 + (-s0).toNat) ≤ (n.natAbs : Int) * 2 ^ s0.toNat then s0 - 1 else s0
  let s : Int := min s1 (a.e - b.e + 1074)
  canon (roundDiv (n * 2 ^ s.toNat) (d * 2 ^ (-s).toNat)) (a.e - b.e - s)

/-- The comparison `a > b`. -/
def gt (a b : Dyadic) : Bool :=
  let e := min a.e b.e
  decide (a.m * 2 ^ (a.e - e).toNat > b.m * 2 ^ (b.e - e).toNat)

/-- The comparison `a < b`. -/
def lt (a b : Dyadic) : Bool :=
  let e := min a.e b.e
  decide (a.m * 2 ^ (a.e - e).toNat < b.m * 2 ^ (b.e - e).toNat)

/-- The comparison `a <= b`. -/
def le (a b : Dyadic) : Bool :=
  let e := min a.e b.e
  decide (a.m * 2 ^ (a.e - e).toNat ≤ b.m * 2 ^ (b.e - e).toNat)

/-- The magnitude is `2 ^ 1024` or more: beyond the largest finite binary64. -/
def overflows (r : Dyadic) : Bool :=
  decide (r.m ≠ 0 ∧ (size r.m.natAbs : Int) + r.e > 1024)

end Dyadic

/-- A value of the C++ type `double`: a finite number, an infinity or NaN. -/
inductive Dbl where
  | fin (x : Dyadic)
  | inf (negative : Bool)
  | nan
deriving DecidableEq, Repr

namespace Dbl

/-- A rounded result as a `double`: an infinity when it overflows. -/
def ofDyadic (r : Dyadic) : Dbl :=
  if r.overflows then inf (decide (r.m < 0)) else fin r

/-- Conversion of an `int` to `double`. -/
def ofInt (n : Int) : Dbl := ofDyadic (Dyadic.round53 n 0)

/-- Floating-point `a + b`. -/
def add : Dbl → Dbl → Dbl
  | fin x, fin y => ofDyadic (Dyadic.add x y)
  | fin _, inf t => inf t
  | inf s, fin _ => inf s
  | inf s, inf t => if s = t then inf s else nan
  | _, _ => nan

/-- Floating-point `a - b`. -/
def sub : Dbl → Dbl → Dbl
  | fin x, fin y => ofDyadic (Dyadic.sub x y)
  | fin _, inf t => inf (!t)
  | inf s, fin _ => inf s
  | inf s, inf t => if s = t then nan else inf s
  | _, _ => nan

/-- Floating-point `a * b`. -/
def mul : Dbl → Dbl → Dbl
  | fin x, fin y => ofDyadic (Dyadic.mul x y)
  | fin x, inf t => if x.m = 0 then nan else inf (xor (decide (x.m < 0)) t)
  | inf s, fin y => if y.m = 0 then nan else inf (xor s (decide (y.m < 0)))
  | inf s, inf t => inf (xor s t)
  | _, _ => nan

/-- Floating-point `a / b`. -/
def div : Dbl → Dbl → Dbl
  | fin x, fin y =>
    if y.m = 0 then (if x.m = 0 then nan else inf (decide (x.m < 0)))
    else ofDyadic (Dyadic.div x y)
  | fin _, inf _ => fin ⟨0, 0⟩
  | inf s, fin y => inf (xor s (decide (y.m < 0)))
  | _, _ => nan

/-- The comparison `a > b`. -/
def gt : Dbl → Dbl → Bool
  | fin x, fin y => Dyadic.gt x y
  | fin _, inf t => t
  | inf s, fin _ => !s
  | inf s, inf t => !s && t
  | _, _ => false

/-- The comparison `a < b`. -/
def lt : Dbl → Dbl → Bool
  | fin x, fin y => Dyadic.lt x y
  | fin _, inf t => !t
  | inf s, fin _ => s
  | inf s, inf t => s && !t
  | _, _ => false

/-- The comparison `a <= b`. -/
def le : Dbl → Dbl → Bool
  | fin x, fin y => Dyadic.le x y
  | fin _, inf t => !t
  | inf s, fin _ => s
  | inf s, inf t => s || !t
  | _, _ => false

/-- Left-to-right floating-point sum starting from `0`, the way the program's
accumulation loops add. -/
def sum (xs : List Dbl) : Dbl := xs.foldl add (ofInt 0)

end Dbl

/-! ## `int` -/

/-- Smallest value of a 32-bit `int`. -/
def INT_MIN : Int := -2147483648

/-- Largest value of a 32-bit `int`. -/
def INT_MAX : Int := 2147483647

/-- The value is representable as a 32-bit `int`. -/
def isInt32 (x : Int) : Prop := INT_MIN ≤ x ∧ x ≤ INT_MAX

instance (x : Int) : Decidable (isInt32 x) := by
  unfold isInt32; exact inferInstance

/-- Two's complement reduction of an exact result to 32 bits. -/
def wrapInt (x : Int) : Int := (x + 2147483648) % 4294967296 - 2147483648

/-! ## Exceptions and output -/

/-- The four `throw` sites of the program, named after the condition each one
reports. -/
inductive ErrKind where
  | itemUnavailable
  | emptyCart
  | insufficientFunds
  | insufficientStock
deriving DecidableEq, Repr

/-- The program's `Exception`: its message, tagged with the site that threw it. -/
structure Exception where
  kind : ErrKind
  message : String
deriving DecidableEq, Repr

/-- One operand of a `cout <<` chain. -/
inductive Tok where
  | str (s : String)
  | chr (c : Char)
  | int (n : Int)
  | dbl (x : Dbl)
deriving DecidableEq, Repr

/-! ## Product -/

/-- The fields of `class Product`. -/
structure Product where
  name : String
  price : Dbl
  quantity : Int
  isExpired : Bool
  isShippable : Bool
  expiryDate : Int
  weight : Dbl
deriving DecidableEq, Repr

namespace Product

/-- The constructor `Product(name, price, quantity)`. -/
def new (name : String) (price : Dbl) (quantity : Int) : Product :=
  ⟨name, price, quantity, false, false, 0, Dbl.ofInt 0⟩

/-- The method `Product::setExpired`. -/
def setExpired (p : Product) (expiry : Int) (itemWeight : Dbl) : Product :=
  { p with isExpired := true, expiryDate := expiry, weight := itemWeight }

/-- The method `Product::setShippable`. -/
def setShippable (p : Product) (itemWeight : Dbl) : Product :=
  { p with isShippable := true, weight := itemWeight }

/-- The method `Product::checkExpired`, with `time(nullptr)` passed as `now`. -/
def checkExpired (p : Product) (now : Int) : Bool :=
  if !p.isExpired then false
  else decide (now > p.expiryDate)

/-- The method `Product::checkAvailable`. -/
def checkAvailable (p : Product) (requested : Int) (now : Int) : Bool :=
  decide (p.quantity ≥ requested) && !p.checkExpired now

/-- The method `Product::reduceQuantity`: the exception thrown, if any, and the
product afterwards. -/
def reduceQuantity (p : Product) (amount : Int) : Option Exception × Product :=
  if amount > p.quantity then
    (some ⟨ErrKind.insufficientStock, "Not enough stock for " ++ p.name⟩, p)
  else
    (none, { p with quantity := wrapInt (p.quantity - amount) })

end Product

/-! ## Customer -/

/-- The fields of `class Customer`. -/
structure Customer where
  name : String
  balance : Dbl
deriving DecidableEq, Repr

/-- The method `Customer::Insufficient` (the charge operation): the exception
thrown, if any, and the customer afterwards. -/
def Customer.Insufficient (c : Customer) (amount : Dbl) : Option Exception × Customer :=
  if Dbl.gt amount c.balance then
    (some ⟨ErrKind.insufficientFunds, "Insufficient balance for " ++ c.name⟩, c)
  else
    (none, { c with balance := Dbl.sub c.balance amount })

/-! ## Cart -/

/-- The address of a `Product` object. -/
abbrev Ptr := Nat

/-- The product objects, by address. -/
abbrev Heap := Ptr → Product

/-- The fields of `class CartItem`. -/
structure CartItem where
  product : Ptr
  quantity : Int
deriving DecidableEq, Repr

/-- The method `CartItem::totalPrice`; the `int` quantity is converted to
`double` by the multiplication. -/
def CartItem.totalPrice (h : Heap) (it : CartItem) : Dbl :=
  Dbl.mul (h it.product).price (Dbl.ofInt it.quantity)

/-- The fields of `class ShoppingCart`. -/
structure ShoppingCart where
  items : List CartItem
deriving DecidableEq, Repr

/-- Everything the program's operations read or write. -/
structure State where
  heap : Heap
  customer : Customer
  cart : ShoppingCart
  out : List Tok

namespace ShoppingCart

/-- The method `ShoppingCart::empty`. -/
def empty (cart : ShoppingCart) : Bool := cart.items.isEmpty

/-- The method `ShoppingCart::calculateSubtotal`. -/
def calculateSubtotal (h : Heap) (cart : ShoppingCart) : Dbl :=
  cart.items.foldl (fun total it => Dbl.add total (it.totalPrice h)) (Dbl.ofInt 0)

/-- The method `ShoppingCart::Shipping`. -/
def Shipping (h : Heap) (cart : ShoppingCart) : List Ptr :=
  cart.items.foldl
    (fun shippable it => if (h it.product).isShippable then shippable ++ [it.product] else shippable)
    []

end ShoppingCart

/-- The method `ShoppingCart::addItem`, on the state whose cart it is called on. -/
def ShoppingCart.addItem (s : State) (now : Int) (product : Ptr) (quantity : Int) :
    Option Exception × State :=
  if !(s.heap product).checkAvailable quantity now then
    (some ⟨ErrKind.itemUnavailable, "Product " ++ (s.heap product).name ++ " not available"⟩, s)
  else
    (none, { s with cart := ⟨s.cart.items ++ [⟨product, quantity⟩]⟩ })

/-! ## Shipping notice, receipt and checkout -/

namespace ShippingService

/-- The body of the loop of `shipItems`: output and running weight. -/
def shipLoop (h : Heap) : List Ptr → List Tok × Dbl → List Tok × Dbl
  | [], acc => acc
  | p :: rest, (out, totalWeight) =>
    shipLoop h rest
      (out ++ [Tok.str "1x ", Tok.str (h p).name, Tok.str "    ", Tok.dbl (h p).weight,
               Tok.str "g", Tok.chr '\n'],
       Dbl.add totalWeight (h p).weight)

/-- The function `ShippingService::shipItems`: the output after the call. -/
def shipItems (h : Heap) (items : List Ptr) (out : List Tok) : List Tok :=
  if items.isEmpty then out
  else
    let r := shipLoop h items (out ++ [Tok.str "** Shipment notice **", Tok.chr '\n'], Dbl.ofInt 0)
    r.1 ++ [Tok.str "Total package weight ", Tok.dbl (Dbl.div r.2 (Dbl.ofInt 1000)),
            Tok.str "kg", Tok.chr '\n', Tok.chr '\n']

end ShippingService

namespace CheckoutService

/-- One line of the receipt. -/
def receiptLine (h : Heap) (it : CartItem) : List Tok :=
  [Tok.int it.quantity, Tok.str "x ", Tok.str (h it.product).name, Tok.str "    ",
   Tok.dbl (it.totalPrice h), Tok.chr '\n']

/-- The function `CheckoutService::printReceipt`: the output after the call. -/
def printReceipt (h : Heap) (cart : ShoppingCart) (subtotal shipping total : Dbl)
    (customer : Customer) (out : List Tok) : List Tok :=
  let out1 := out ++ [Tok.str "** Checkout receipt **", Tok.chr '\n']
  let out2 := cart.items.foldl (fun o it => o ++ receiptLine h it) out1
  out2 ++ [Tok.str "---", Tok.chr '\n',
           Tok.str "Subtotal    ", Tok.dbl subtotal, Tok.chr '\n',
           Tok.str "Shipping    ", Tok.dbl shipping, Tok.chr '\n',
           Tok.str "Amount    ", Tok.dbl total, Tok.chr '\n',
           Tok.str "Remaining balance: ", Tok.dbl customer.balance, Tok.chr '\n']

/-- The shipping fee of `processCheckout` (lines 170 to 176 of the source). -/
def shippingFee (h : Heap) (cart : ShoppingCart) : Dbl :=
  let shipping := (cart.Shipping h).foldl (fun acc p => Dbl.add acc (h p).weight) (Dbl.ofInt 0)
  Dbl.mul (Dbl.div shipping (Dbl.ofInt 1000)) (Dbl.ofInt 10)

/-- The amount `processCheckout` charges: `subtotal + shipping`. -/
def total (h : Heap) (cart : ShoppingCart) : Dbl :=
  Dbl.add (cart.calculateSubtotal h) (shippingFee h cart)

/-- The stock reduction loop of `processCheckout`: the exception that ended it,
if any, and the heap it left. -/
def reduceLoop : List CartItem → Heap → Option Exception × Heap
  | [], h => (none, h)
  | it :: rest, h =>
    match (h it.product).reduceQuantity it.quantity with
    | (some ex, p) => (some ex, Function.update h it.product p)
    | (none, p) => reduceLoop rest (Function.update h it.product p)

/-- The function `CheckoutService::processCheckout`. -/
def processCheckout (s : State) : Option Exception × State :=
  if s.cart.empty then
    (some ⟨ErrKind.emptyCart, "Cannot checkout with empty cart"⟩, s)
  else
    let shippable := s.cart.Shipping s.heap
    let shipping := shippingFee s.heap s.cart
    let subtotal := s.cart.calculateSubtotal s.heap
    let total := Dbl.add subtotal shipping
    match s.customer.Insufficient total with
    | (some ex, c) => (some ex, { s with customer := c })
    | (none, c) =>
      match reduceLoop s.cart.items s.heap with
      | (some ex, h) => (some ex, { s with customer := c, heap := h })
      | (none, h) =>
        let out1 := ShippingService.shipItems h shippable s.out
        let out2 := printReceipt h s.cart subtotal shipping total c out1
        (none, { s with customer := c, heap := h, out := out2 })

end CheckoutService

/-- A run of `addItem` calls on one cart, as in `main`: each call comes with the
time at which it is made, its product and its quantity, and the run ends at
the first exception. -/
def addItems (s : State) : List (Int × Ptr × Int) → Option Exception × State
  | [] => (none, s)
  | (now, product, quantity) :: rest =>
    match ShoppingCart.addItem s now product quantity with
    | (some ex, s') => (some ex, s')
    | (none, s') => addItems s' rest

/-- The function `processCheckout` called at the time `now`.  Nothing it runs
calls `time` or `checkExpired`, so the time is passed on to nothing. -/
def CheckoutService.processCheckoutAt (_now : Int) (s : State) : Option Exception × State :=
  CheckoutService.processCheckout s

/-- The heap in which the expiry data of every product (whether it tracks
expiry, and its expiry instant) is replaced by the given one. -/
def withExpiry (h : Heap) (expiry : Ptr → Bool × Int) : Heap := fun p =>
  { h p with isExpired := (expiry p).1, expiryDate := (expiry p).2 }

/-- The two heaps hold, at every address, products of the same name, price,
weight and shippability. -/
def sameView (h' h : Heap) : Prop :=
  ∀ p, (h' p).name = (h p).name ∧ (h' p).price = (h p).price ∧
    (h' p).weight = (h p).weight ∧ (h' p).isShippable = (h p).isShippable

/-! ## The specification's formulas -/

/-- The subtotal in the specification's words: the sum over the cart lines, in
cart order, of unit price times line quantity. -/
def specSubtotal (h : Heap) (cart : ShoppingCart) : Dbl :=
  Dbl.sum (cart.items.map fun it => Dbl.mul (h it.product).price (Dbl.ofInt it.quantity))

/-- The shipping fee in the specification's words: the sum of the weights of
`cart.Shipping()`, divided by 1000, times 10. -/
def specShippingFee (h : Heap) (cart : ShoppingCart) : Dbl :=
  Dbl.mul
    (Dbl.div (Dbl.sum ((cart.Shipping h).map fun p => (h p).weight)) (Dbl.ofInt 1000))
    (Dbl.ofInt 10)

/-- The total in the specification's words: subtotal plus shipping fee. -/
def specTotal (h : Heap) (cart : ShoppingCart) : Dbl :=
  Dbl.add (specSubtotal h cart) (specShippingFee h cart)

/-- The entries of the receipt in the specification's words: for each line its
quantity, the name of its item and its line total. -/
def specLines (h : Heap) (cart : ShoppingCart) : List (Int × String × Dbl) :=
  cart.items.map fun it =>
    (it.quantity, (h it.product).name, Dbl.mul (h it.product).price (Dbl.ofInt it.quantity))

/-- The receipt in the specification's words: a header, the entries, then the
subtotal, the shipping fee, the total charged and the balance after the
charge. -/
def specReceipt (lines : List (Int × String × Dbl)) (subtotal fee amount balance : Dbl) :
    List Tok :=
  [Tok.str "** Checkout receipt **", Tok.chr '\n'] ++
  (lines.map fun l =>
    [Tok.int l.1, Tok.str "x ", Tok.str l.2.1, Tok.str "    ", Tok.dbl l.2.2,
     Tok.chr '\n']).flatten ++
  [Tok.str "---", Tok.chr '\n',
   Tok.str "Subtotal    ", Tok.dbl subtotal, Tok.chr '\n',
   Tok.str "Shipping    ", Tok.dbl fee, Tok.chr '\n',
   Tok.str "Amount    ", Tok.dbl amount, Tok.chr '\n',
   Tok.str "Remaining balance: ", Tok.dbl balance, Tok.chr '\n']

/-- The sum of the requested quantities of the lines that reference the
product at address `p`. -/
def requested (items : List CartItem) (p : Ptr) : Int :=
  ((items.filter fun it => it.product = p).map CartItem.quantity).sum

/-- The two products agree on every field but the stock. -/
def Product.sameEntry (a b : Product) : Prop :=
  a = { b with quantity := a.quantity }

/-! ## The worked scenario of the specification -/

/-- Cheese: price 100, stock 10, shippable, 200 g. -/
def cheese : Product := (Product.new "Cheese" (Dbl.ofInt 100) 10).setShippable (Dbl.ofInt 200)

/-- Biscuits: price 150, stock 3, not shippable. -/
def biscuits : Product := Product.new "Biscuits" (Dbl.ofInt 150) 3

/-- A heap with Cheese at address `0` and Biscuits everywhere else. -/
def catalog : Heap := fun p => if p = 0 then cheese else biscuits

/-- The scenario before any cart operation: an empty cart, nothing printed and
a customer with the given balance. -/
def scenario (balance : Int) : State :=
  ⟨catalog, ⟨"John Doe", Dbl.ofInt balance⟩, ⟨[]⟩, []⟩

/-- The scenario after `addItem(Cheese, 2)` and `addItem(Biscuits, 2)`. -/
def scenarioCart (balance : Int) : State :=
  { scenario balance with cart := ⟨[⟨0, 2⟩, ⟨1, 2⟩]⟩ }

/-- The scenario's customer and catalog after `addItem(Cheese, 6)` twice: each
call is within the stock of 10, the two together are not. -/
def twiceCheese : State :=
  { scenario 20000 with cart := ⟨[⟨0, 6⟩, ⟨0, 6⟩]⟩ }

/-- A catalog whose products all have the largest stock an `int` can hold, and a
cart whose one line asks for `-1` pieces. -/
def fullStock : State :=
  ⟨fun _ => Product.new "Mobile Scratch Card" (Dbl.ofInt 50) INT_MAX,
   ⟨"John Doe", Dbl.ofInt 0⟩, ⟨[⟨0, -1⟩]⟩, []⟩

/-- Three products priced `0.1`, `0.2` and `0.3` (the doubles nearest to them),
stock 10 each, at the addresses 0, 1 and from 2 on. -/
def tenths : Heap := fun p =>
  if p = 0 then Product.new "Gum" (Dbl.div (Dbl.ofInt 1) (Dbl.ofInt 10)) 10
  else if p = 1 then Product.new "Mint" (Dbl.div (Dbl.ofInt 2) (Dbl.ofInt 10)) 10
  else Product.new "Lolly" (Dbl.div (Dbl.ofInt 3) (Dbl.ofInt 10)) 10

/-- The scenario with a Cheese that tracks expiry and expires at time 100. -/
def expiringCheese : State :=
  { scenarioCart 20000 with
    heap := fun p => if p = 0 then cheese.setExpired 100 (Dbl.ofInt 200) else biscuits }

/-! ## Lemmas about the arithmetic -/

theorem Dyadic.gt_eq_lt_swap (a b : Dyadic) : Dyadic.gt a b = Dyadic.lt b a := by
  simp only [Dyadic.gt, Dyadic.lt, min_comm b.e a.e, gt_iff_lt]

theorem Dyadic.not_gt_of_le (a b : Dyadic) (h : Dyadic.le a b = true) :
    Dyadic.gt a b = false := by
  simp only [Dyadic.le, decide_eq_true_eq] at h
  simp only [Dyadic.gt, gt_iff_lt, decide_eq_false_iff_not, not_lt]
  exact h

theorem Dbl.gt_eq_lt (a b : Dbl) : Dbl.gt a b = Dbl.lt b a := by
  cases a <;> cases b <;> simp [Dbl.gt, Dbl.lt, Dyadic.gt_eq_lt_swap, Bool.and_comm]

theorem Dbl.gt_eq_false_of_le (a b : Dbl) (h : Dbl.le a b = true) : Dbl.gt a b = false := by
  cases a with
  | fin x =>
    cases b with
    | fin y => exact Dyadic.not_gt_of_le x y h
    | inf t => cases t <;> simp_all [Dbl.le, Dbl.gt]
    | nan => rfl
  | inf s =>
    cases b with
    | fin y => cases s <;> simp_all [Dbl.le, Dbl.gt]
    | inf t => cases s <;> cases t <;> simp_all [Dbl.le, Dbl.gt]
    | nan => rfl
  | nan => cases b <;> rfl

set_option maxRecDepth 100000 in
/-- Known binary64 results, as a check of the arithmetic: `1.0 / 10` is
`0x1.999999999999ap-4`, `0.1 + 0.2` is `0.30000000000000004`, `2 ^ 53 + 1`
rounds back to `2 ^ 53`, `(200.0 / 1000) * 10` is exactly `2`, the smallest
positive double divided by 1000 is `0`, and `2 ^ 1023 + 2 ^ 1023` is
`+infinity`. -/
theorem Dbl.known_results :
    Dbl.div (Dbl.ofInt 1) (Dbl.ofInt 10) = Dbl.fin ⟨3602879701896397, -55⟩ ∧
    Dbl.add (Dbl.div (Dbl.ofInt 1) (Dbl.ofInt 10)) (Dbl.div (Dbl.ofInt 2) (Dbl.ofInt 10))
      = Dbl.fin ⟨1351079888211149, -52⟩ ∧
    Dbl.add (Dbl.ofInt 9007199254740992) (Dbl.ofInt 1) = Dbl.ofInt 9007199254740992 ∧
    Dbl.mul (Dbl.div (Dbl.ofInt 200) (Dbl.ofInt 1000)) (Dbl.ofInt 10) = Dbl.ofInt 2 ∧
    Dbl.div (Dbl.fin ⟨1, -1074⟩) (Dbl.ofInt 1000) = Dbl.ofInt 0 ∧
    Dbl.add (Dbl.fin ⟨1, 1023⟩) (Dbl.fin ⟨1, 1023⟩) = Dbl.inf false := by
  decide

theorem Dyadic.roundDiv_zero (d : Nat) (hd : 0 < d) : Dyadic.roundDiv 0 d = 0 := by
  have hd' : (0 : Int) < (d : Int) := by exact_mod_cast hd
  simp [Dyadic.roundDiv, hd']

theorem Dyadic.round53_zero (e : Int) : Dyadic.round53 0 e = ⟨0, 0⟩ := by
  simp only [Dyadic.round53]
  rw [Dyadic.roundDiv_zero _ (pow_pos (by decide) _)]
  rfl

theorem Dbl.ofInt_zero : Dbl.ofInt 0 = Dbl.fin ⟨0, 0⟩ := by
  decide

theorem Dbl.sub_fin_same (x : Dyadic) : Dbl.sub (Dbl.fin x) (Dbl.fin x) = Dbl.ofInt 0 := by
  simp only [Dbl.sub, Dyadic.sub, Int.sub_self, Dyadic.round53_zero, Dbl.ofInt_zero]
  rfl

theorem Dbl.sub_fin_eq_zero (x y : Dyadic) (hgt : Dbl.gt (Dbl.fin x) (Dbl.fin y) = false)
    (hlt : Dbl.lt (Dbl.fin x) (Dbl.fin y) = false) :
    Dbl.sub (Dbl.fin y) (Dbl.fin x) = Dbl.ofInt 0 := by
  simp only [Dbl.gt, Dyadic.gt, gt_iff_lt, decide_eq_false_iff_not, not_lt] at hgt
  simp only [Dbl.lt, Dyadic.lt, decide_eq_false_iff_not, not_lt] at hlt
  have heq := le_antisymm hgt hlt
  simp only [Dbl.sub, Dyadic.sub, min_comm y.e x.e, heq, Int.sub_self, Dyadic.round53_zero,
    Dbl.ofInt_zero]
  rfl

theorem wrapInt_of_isInt32 (x : Int) (h : isInt32 x) : wrapInt x = x := by
  unfold isInt32 INT_MIN INT_MAX at h
  unfold wrapInt
  omega

theorem isInt32_wrapInt (x : Int) : isInt32 (wrapInt x) := by
  unfold isInt32 INT_MIN INT_MAX wrapInt
  omega

/-! ## Lemmas about the operations -/

open CheckoutService

theorem processCheckout_of_empty (s : State) (h : s.cart.items = []) :
    processCheckout s = (some ⟨ErrKind.emptyCart, "Cannot checkout with empty cart"⟩, s) := by
  simp [processCheckout, ShoppingCart.empty, h]

theorem processCheckout_of_gt (s : State) (hne : s.cart.items ≠ [])
    (hgt : Dbl.gt (total s.heap s.cart) s.customer.balance = true) :
    processCheckout s =
      (some ⟨ErrKind.insufficientFunds, "Insufficient balance for " ++ s.customer.name⟩, s) := by
  simp only [total] at hgt
  simp [processCheckout, ShoppingCart.empty, hne, Customer.Insufficient, hgt]

theorem processCheckout_of_not_gt (s : State) (hne : s.cart.items ≠ [])
    (hgt : Dbl.gt (total s.heap s.cart) s.customer.balance = false) :
    processCheckout s =
      match reduceLoop s.cart.items s.heap with
      | (some ex, h) =>
        (some ex, { s with
          customer := { s.customer with
            balance := Dbl.sub s.customer.balance (total s.heap s.cart) },
          heap := h })
      | (none, h) =>
        (none, { s with
          customer := { s.customer with
            balance := Dbl.sub s.customer.balance (total s.heap s.cart) },
          heap := h,
          out := printReceipt h s.cart (s.cart.calculateSubtotal s.heap)
            (shippingFee s.heap s.cart) (total s.heap s.cart)
            { s.customer with balance := Dbl.sub s.customer.balance (total s.heap s.cart) }
            (ShippingService.shipItems h (s.cart.Shipping s.heap) s.out) }) := by
  simp only [total] at hgt
  simp [processCheckout, ShoppingCart.empty, hne, Customer.Insufficient, hgt, total]

theorem foldl_append_flatten {α β : Type} (f : α → List β) (l : List α) (init : List β) :
    l.foldl (fun o x => o ++ f x) init = init ++ (l.map f).flatten := by
  induction l generalizing init with
  | nil => simp
  | cons x xs ih => simp [ih, List.append_assoc]

theorem Product.sameEntry_refl (a : Product) : a.sameEntry a := rfl

theorem Product.sameEntry_trans {a b c : Product} (hab : a.sameEntry b) (hbc : b.sameEntry c) :
    a.sameEntry c := by
  unfold Product.sameEntry at *
  rw [hab, hbc]

theorem Product.reduceQuantity_sameEntry (p : Product) (amount : Int) :
    (p.reduceQuantity amount).2.sameEntry p := by
  unfold Product.reduceQuantity Product.sameEntry
  split <;> rfl

theorem reduceLoop_sameEntry (items : List CartItem) (h : Heap) (q : Ptr) :
    ((reduceLoop items h).2 q).sameEntry (h q) := by
  induction items generalizing h with
  | nil => exact Product.sameEntry_refl _
  | cons it rest ih =>
    have hq := Product.reduceQuantity_sameEntry (h it.product) it.quantity
    have hstep : (Function.update h it.product ((h it.product).reduceQuantity it.quantity).2 q).sameEntry
        (h q) := by
      by_cases hpq : q = it.product
      · subst hpq; simpa using hq
      · simpa [Function.update_noteq hpq] using Product.sameEntry_refl (h q)
    rcases hr : (h it.product).reduceQuantity it.quantity with ⟨_ | ex, p⟩
    · rw [hr] at hstep
      simp only [reduceLoop, hr]
      exact Product.sameEntry_trans (ih _) hstep
    · rw [hr] at hstep
      simpa only [reduceLoop, hr] using hstep

theorem reduceLoop_kind (items : List CartItem) (h : Heap) (ex : Exception)
    (hex : (reduceLoop items h).1 = some ex) : ex.kind = ErrKind.insufficientStock := by
  induction items generalizing h with
  | nil => simp [reduceLoop] at hex
  | cons it rest ih =>
    unfold reduceLoop at hex
    unfold Product.reduceQuantity at hex
    by_cases hgt : it.quantity > (h it.product).quantity
    · simp only [hgt, if_true, Option.some.injEq] at hex
      rw [← hex]
    · simp only [hgt, if_false] at hex
      exact ih _ hex

theorem requested_cons (it : CartItem) (l : List CartItem) (q : Ptr) :
    requested (it :: l) q = (if it.product = q then it.quantity else 0) + requested l q := by
  unfold requested
  by_cases h : it.product = q <;> simp [List.filter_cons, h]

theorem requested_eq_zero (l : List CartItem) (q : Ptr) (h : ∀ it ∈ l, it.product ≠ q) :
    requested l q = 0 := by
  induction l with
  | nil => rfl
  | cons it rest ih =>
    rw [requested_cons, ih (fun x hx => h x (List.mem_cons_of_mem _ hx))]
    simp [h it (List.mem_cons_self _ _)]

theorem reduceLoop_stock (items : List CartItem) (h : Heap)
    (hok : (reduceLoop items h).1 = none)
    (hno : ∀ pre it post, items = pre ++ it :: post →
      (h it.product).quantity - requested (pre ++ [it]) it.product ≤ INT_MAX)
    (q : Ptr) :
    ((reduceLoop items h).2 q).quantity = (h q).quantity - requested items q := by
  induction items generalizing h with
  | nil => simp [reduceLoop, requested]
  | cons it rest ih =>
    have h0 := hno [] it rest rfl
    have hone : requested ([] ++ [it]) it.product = it.quantity := by
      rw [List.nil_append, requested_cons]
      simp [requested]
    rw [hone] at h0
    unfold reduceLoop at hok ⊢
    unfold Product.reduceQuantity at hok ⊢
    by_cases hgt : it.quantity > (h it.product).quantity
    · simp [hgt] at hok
    · have hw : wrapInt ((h it.product).quantity - it.quantity)
          = (h it.product).quantity - it.quantity := by
        unfold wrapInt
        unfold INT_MAX at h0
        omega
      simp only [hgt, if_false, hw] at hok ⊢
      rw [ih _ hok, requested_cons]
      · by_cases hpq : q = it.product
        · subst hpq
          simp only [Function.update_same, if_true]
          omega
        · have hne : ¬ it.product = q := fun e => hpq e.symm
          simp only [Function.update_noteq hpq, hne, if_false]
          omega
      · intro pre x post hrest
        have hx := hno (it :: pre) x post (by simp [hrest])
        rw [List.cons_append, requested_cons] at hx
        by_cases hpx : x.product = it.product
        · rw [hpx] at hx ⊢
          simp only [Function.update_same, if_true] at hx ⊢
          omega
        · have hne : ¬ it.product = x.product := fun e => hpx e.symm
          simp only [Function.update_noteq hpx, hne, if_false] at hx ⊢
          omega

theorem Product.sameEntry_of_quantity_eq {a b : Product} (hab : a.sameEntry b)
    (hq : a.quantity = b.quantity) : a = b := by
  unfold Product.sameEntry at hab
  rw [hab, hq]

theorem Product.sameEntry_name {a b : Product} (hab : a.sameEntry b) : a.name = b.name := by
  unfold Product.sameEntry at hab
  rw [hab]

theorem Product.sameEntry_price {a b : Product} (hab : a.sameEntry b) : a.price = b.price := by
  unfold Product.sameEntry at hab
  rw [hab]

theorem calculateSubtotal_eq_spec (h : Heap) (cart : ShoppingCart) :
    cart.calculateSubtotal h = specSubtotal h cart := by
  simp [ShoppingCart.calculateSubtotal, specSubtotal, Dbl.sum, List.foldl_map,
    CartItem.totalPrice]

theorem shippingFee_eq_spec (h : Heap) (cart : ShoppingCart) :
    shippingFee h cart = specShippingFee h cart := by
  simp [shippingFee, specShippingFee, Dbl.sum, List.foldl_map]

theorem total_eq_spec (h : Heap) (cart : ShoppingCart) : total h cart = specTotal h cart := by
  simp [total, specTotal, calculateSubtotal_eq_spec, shippingFee_eq_spec]

theorem specLines_congr (h h' : Heap) (cart : ShoppingCart)
    (hs : ∀ q, (h' q).sameEntry (h q)) : specLines h' cart = specLines h cart := by
  unfold specLines
  apply List.map_congr_left
  intro it _
  rw [Product.sameEntry_name (hs it.product), Product.sameEntry_price (hs it.product)]

theorem printReceipt_eq_spec (h : Heap) (cart : ShoppingCart) (subtotal shipping amount : Dbl)
    (customer : Customer) (out : List Tok) :
    printReceipt h cart subtotal shipping amount customer out =
      out ++ specReceipt (specLines h cart) subtotal shipping amount customer.balance := by
  simp only [printReceipt, foldl_append_flatten, specReceipt, specLines, List.map_map,
    List.append_assoc]
  rfl

theorem shipLoop_appends (h : Heap) (items : List Ptr) (out : List Tok) (w : Dbl) :
    ∃ notice, (ShippingService.shipLoop h items (out, w)).1 = out ++ notice := by
  induction items generalizing out w with
  | nil => exact ⟨[], by simp [ShippingService.shipLoop]⟩
  | cons p rest ih =>
    obtain ⟨n, hn⟩ := ih
      (out ++ [Tok.str "1x ", Tok.str (h p).name, Tok.str "    ", Tok.dbl (h p).weight,
        Tok.str "g", Tok.chr '\n'])
      (Dbl.add w (h p).weight)
    refine ⟨[Tok.str "1x ", Tok.str (h p).name, Tok.str "    ", Tok.dbl (h p).weight,
        Tok.str "g", Tok.chr '\n'] ++ n, ?_⟩
    rw [ShippingService.shipLoop, hn, List.append_assoc]

theorem shipItems_appends (h : Heap) (items : List Ptr) (out : List Tok) :
    ∃ notice, ShippingService.shipItems h items out = out ++ notice := by
  unfold ShippingService.shipItems
  by_cases he : items.isEmpty
  · exact ⟨[], by simp [he]⟩
  · obtain ⟨n, hn⟩ := shipLoop_appends h items
      (out ++ [Tok.str "** Shipment notice **", Tok.chr '\n']) (Dbl.ofInt 0)
    refine ⟨[Tok.str "** Shipment notice **", Tok.chr '\n'] ++ n ++
      [Tok.str "Total package weight ",
        Tok.dbl (Dbl.div (ShippingService.shipLoop h items
          (out ++ [Tok.str "** Shipment notice **", Tok.chr '\n'], Dbl.ofInt 0)).2
          (Dbl.ofInt 1000)),
        Tok.str "kg", Tok.chr '\n', Tok.chr '\n'], ?_⟩
    simp only [he, hn, List.append_assoc]
    rfl

theorem Shipping_foldl (h : Heap) (items : List CartItem) (acc : List Ptr) :
    items.foldl
        (fun shippable it =>
          if (h it.product).isShippable then shippable ++ [it.product] else shippable) acc
      = acc ++ (items.filter fun it => (h it.product).isShippable).map CartItem.product := by
  induction items generalizing acc with
  | nil => simp
  | cons it rest ih =>
    by_cases hsh : (h it.product).isShippable = true
    · simp [List.filter_cons, hsh, ih]
    · simp [List.filter_cons, hsh, ih]

theorem Shipping_eq_filter (h : Heap) (cart : ShoppingCart) :
    cart.Shipping h
      = (cart.items.filter fun it => (h it.product).isShippable).map CartItem.product := by
  simp [ShoppingCart.Shipping, Shipping_foldl]

theorem addItems_ok (s : State) (calls : List (Int × Ptr × Int))
    (h : (addItems s calls).1 = none) :
    (addItems s calls).2
      = { s with cart := ⟨s.cart.items ++ calls.map fun c => ⟨c.2.1, c.2.2⟩⟩ } ∧
    ∀ c ∈ calls, (s.heap c.2.1).checkAvailable c.2.2 c.1 = true := by
  induction calls generalizing s with
  | nil => simp [addItems]
  | cons c rest ih =>
    obtain ⟨now, product, quantity⟩ := c
    unfold addItems at h ⊢
    unfold ShoppingCart.addItem at h ⊢
    cases hav : (s.heap product).checkAvailable quantity now with
    | false => simp [hav] at h
    | true =>
      simp only [hav, Bool.not_true, Bool.false_eq_true, if_false] at h ⊢
      obtain ⟨hstate, hall⟩ := ih _ h
      refine ⟨?_, ?_⟩
      · rw [hstate]
        simp [List.append_assoc]
      · intro c hc
        rcases List.mem_cons.mp hc with rfl | hc
        · exact hav
        · exact hall c hc

theorem reduceLoop_append_fail (pre : List CartItem) (it : CartItem) (post : List CartItem)
    (h : Heap) (hpre : (reduceLoop pre h).1 = none)
    (hfail : it.quantity > ((reduceLoop pre h).2 it.product).quantity) :
    reduceLoop (pre ++ it :: post) h =
      (some ⟨ErrKind.insufficientStock,
        "Not enough stock for " ++ ((reduceLoop pre h).2 it.product).name⟩,
       (reduceLoop pre h).2) := by
  induction pre generalizing h with
  | nil =>
    simp only [reduceLoop] at hfail
    simp [reduceLoop, Product.reduceQuantity, hfail]
  | cons a pre ih =>
    unfold reduceLoop at hpre hfail
    unfold Product.reduceQuantity at hpre hfail
    by_cases hgt : a.quantity > (h a.product).quantity
    · simp [hgt] at hpre
    · simp only [hgt, if_false] at hpre hfail
      rw [List.cons_append]
      simp only [reduceLoop, Product.reduceQuantity, hgt, if_false]
      exact ih _ hpre hfail

theorem sameView_of_sameEntry (h' h : Heap) (hs : ∀ p, (h' p).sameEntry (h p)) :
    sameView h' h := by
  intro p
  have hp := hs p
  unfold Product.sameEntry at hp
  refine ⟨?_, ?_, ?_, ?_⟩ <;> rw [hp]

theorem calculateSubtotal_congr (h' h : Heap) (hv : sameView h' h) (cart : ShoppingCart) :
    cart.calculateSubtotal h' = cart.calculateSubtotal h := by
  have hf : (fun (acc : Dbl) (it : CartItem) => Dbl.add acc (it.totalPrice h'))
      = fun acc it => Dbl.add acc (it.totalPrice h) := by
    funext acc it
    simp [CartItem.totalPrice, (hv it.product).2.1]
  simp only [ShoppingCart.calculateSubtotal, hf]

theorem Shipping_congr (h' h : Heap) (hv : sameView h' h) (cart : ShoppingCart) :
    cart.Shipping h' = cart.Shipping h := by
  have hf : (fun (shippable : List Ptr) (it : CartItem) =>
        if (h' it.product).isShippable then shippable ++ [it.product] else shippable)
      = fun shippable it =>
        if (h it.product).isShippable then shippable ++ [it.product] else shippable := by
    funext acc it
    rw [(hv it.product).2.2.2]
  simp only [ShoppingCart.Shipping, hf]

theorem shippingFee_congr (h' h : Heap) (hv : sameView h' h) (cart : ShoppingCart) :
    shippingFee h' cart = shippingFee h cart := by
  have hf : (fun (acc : Dbl) (p : Ptr) => Dbl.add acc (h' p).weight)
      = fun acc p => Dbl.add acc (h p).weight := by
    funext acc p
    rw [(hv p).2.2.1]
  simp only [shippingFee, Shipping_congr h' h hv, hf]

theorem total_congr (h' h : Heap) (hv : sameView h' h) (cart : ShoppingCart) :
    total h' cart = total h cart := by
  simp only [total, calculateSubtotal_congr h' h hv, shippingFee_congr h' h hv]

theorem processCheckout_cart (s : State) : (processCheckout s).2.cart = s.cart := by
  by_cases hne : s.cart.items = []
  · rw [processCheckout_of_empty s hne]
  · cases hgt : Dbl.gt (total s.heap s.cart) s.customer.balance with
    | true => rw [processCheckout_of_gt s hne hgt]
    | false =>
      rw [processCheckout_of_not_gt s hne hgt]
      rcases reduceLoop s.cart.items s.heap with ⟨_ | ex, h2⟩ <;> rfl

theorem sameView_withExpiry (h : Heap) (expiry : Ptr → Bool × Int) :
    sameView (withExpiry h expiry) h := by
  intro p
  exact ⟨rfl, rfl, rfl, rfl⟩

theorem reduceLoop_congr (items : List CartItem) (h' h : Heap) (hv : sameView h' h)
    (hq : ∀ p, (h' p).quantity = (h p).quantity) :
    (reduceLoop items h').1 = (reduceLoop items h).1 ∧
    sameView (reduceLoop items h').2 (reduceLoop items h).2 ∧
    ∀ p, ((reduceLoop items h').2 p).quantity = ((reduceLoop items h).2 p).quantity := by
  induction items generalizing h' h with
  | nil => exact ⟨rfl, hv, hq⟩
  | cons it rest ih =>
    unfold reduceLoop
    unfold Product.reduceQuantity
    rw [hq it.product, (hv it.product).1]
    by_cases hgt : it.quantity > (h it.product).quantity
    · simp only [hgt, if_true, Function.update_eq_self, true_and]
      exact ⟨hv, hq⟩
    · simp only [hgt, if_false]
      apply ih
      · intro p
        by_cases hp : p = it.product
        · rw [hp]
          simp only [Function.update_same]
          exact ⟨trivial, (hv it.product).2⟩
        · simp only [Function.update_noteq hp]
          exact hv p
      · intro p
        by_cases hp : p = it.product
        · rw [hp]
          simp only [Function.update_same]
        · simp only [Function.update_noteq hp]
          exact hq p

theorem shipLoop_congr (h' h : Heap) (hv : sameView h' h) (items : List Ptr)
    (acc : List Tok × Dbl) :
    ShippingService.shipLoop h' items acc = ShippingService.shipLoop h items acc := by
  induction items generalizing acc with
  | nil => rfl
  | cons p rest ih =>
    obtain ⟨out, w⟩ := acc
    simp only [ShippingService.shipLoop, (hv p).1, (hv p).2.2.1, ih]

theorem shipItems_congr (h' h : Heap) (hv : sameView h' h) (items : List Ptr)
    (out : List Tok) :
    ShippingService.shipItems h' items out = ShippingService.shipItems h items out := by
  simp only [ShippingService.shipItems, shipLoop_congr h' h hv]

theorem printReceipt_congr (h' h : Heap) (hv : sameView h' h) (cart : ShoppingCart)
    (subtotal shipping amount : Dbl) (customer : Customer) (out : List Tok) :
    printReceipt h' cart subtotal shipping amount customer out
      = printReceipt h cart subtotal shipping amount customer out := by
  have hf : (fun (o : List Tok) (it : CartItem) => o ++ receiptLine h' it)
      = fun o it => o ++ receiptLine h it := by
    funext o it
    simp [receiptLine, CartItem.totalPrice, (hv it.product).1, (hv it.product).2.1]
  simp only [printReceipt, hf]

theorem processCheckout_congr (s' s : State) (hv : sameView s'.heap s.heap)
    (hq : ∀ p, (s'.heap p).quantity = (s.heap p).quantity)
    (hc : s'.customer = s.customer) (hcart : s'.cart = s.cart) (hout : s'.out = s.out) :
    (processCheckout s').1 = (processCheckout s).1 ∧
    (processCheckout s').2.customer = (processCheckout s).2.customer ∧
    (processCheckout s').2.out = (processCheckout s).2.out ∧
    (processCheckout s').2.cart = (processCheckout s).2.cart ∧
    ∀ p, ((processCheckout s').2.heap p).quantity = ((processCheckout s).2.heap p).quantity := by
  have htotal : total s'.heap s'.cart = total s.heap s.cart := by
    rw [hcart]
    exact total_congr _ _ hv s.cart
  by_cases hne : s.cart.items = []
  · have hne' : s'.cart.items = [] := by rw [hcart]; exact hne
    rw [processCheckout_of_empty s hne, processCheckout_of_empty s' hne']
    exact ⟨rfl, hc, hout, hcart, hq⟩
  · have hne' : s'.cart.items ≠ [] := by rw [hcart]; exact hne
    cases hgt : Dbl.gt (total s.heap s.cart) s.customer.balance with
    | true =>
      have hgt' : Dbl.gt (total s'.heap s'.cart) s'.customer.balance = true := by
        rw [htotal, hc]; exact hgt
      rw [processCheckout_of_gt s hne hgt, processCheckout_of_gt s' hne' hgt', hc]
      exact ⟨rfl, rfl, hout, hcart, hq⟩
    | false =>
      have hgt' : Dbl.gt (total s'.heap s'.cart) s'.customer.balance = false := by
        rw [htotal, hc]; exact hgt
      obtain ⟨h1, h2, h3⟩ := reduceLoop_congr s.cart.items s'.heap s.heap hv hq
      rw [processCheckout_of_not_gt s hne hgt, processCheckout_of_not_gt s' hne' hgt', htotal,
        hc, hcart, hout, calculateSubtotal_congr _ _ hv, shippingFee_congr _ _ hv,
        Shipping_congr _ _ hv]
      rcases hr : reduceLoop s.cart.items s.heap with ⟨_ | ex, k⟩ <;>
        rcases hr' : reduceLoop s.cart.items s'.heap with ⟨_ | ex', k'⟩ <;>
        rw [hr, hr'] at h1 h2 h3
      · refine ⟨rfl, rfl, ?_, rfl, h3⟩
        simp only [printReceipt_congr _ _ h2, shipItems_congr _ _ h2]
      · simp at h1
      · simp at h1
      · exact ⟨h1, rfl, rfl, rfl, h3⟩

theorem processCheckout_ok_inv (s : State) (h : (processCheckout s).1 = none) :
    s.cart.items ≠ [] ∧
    Dbl.gt (total s.heap s.cart) s.customer.balance = false ∧
    (reduceLoop s.cart.items s.heap).1 = none ∧
    (processCheckout s).2 =
      { s with
        customer := { s.customer with
          balance := Dbl.sub s.customer.balance (total s.heap s.cart) },
        heap := (reduceLoop s.cart.items s.heap).2,
        out := printReceipt (reduceLoop s.cart.items s.heap).2 s.cart
          (s.cart.calculateSubtotal s.heap) (shippingFee s.heap s.cart) (total s.heap s.cart)
          { s.customer with balance := Dbl.sub s.customer.balance (total s.heap s.cart) }
          (ShippingService.shipItems (reduceLoop s.cart.items s.heap).2
            (s.cart.Shipping s.heap) s.out) } := by
  by_cases hne : s.cart.items = []
  · rw [processCheckout_of_empty s hne] at h
    simp at h
  · cases hgt : Dbl.gt (total s.heap s.cart) s.customer.balance with
    | true =>
      rw [processCheckout_of_gt s hne hgt] at h
      simp at h
    | false =>
      rw [processCheckout_of_not_gt s hne hgt] at h ⊢
      rcases hr : reduceLoop s.cart.items s.heap with ⟨_ | ex, h'⟩
      · exact ⟨hne, rfl, rfl, rfl⟩
      · rw [hr] at h
        simp at h

/-! ## Claims -/

/-- C1: when `processCheckout` returns normally the cart is not empty, the
balance is reduced by `subtotal + (sum of the weights of cart.Shipping()) / 1000
* 10` with the subtotal the sum over the cart lines of price times line
quantity, and the output is extended by a shipment notice and the receipt, which
prints that amount; the amount is the sum of the receipt's line totals plus the
receipt's shipping fee.  Sums are taken in cart order. -/
theorem C1_charged_amount (s : State) (h : (processCheckout s).1 = none) :
    s.cart.items ≠ [] ∧
    (processCheckout s).2.customer.balance
      = Dbl.sub s.customer.balance (specTotal s.heap s.cart) ∧
    (∃ notice, (processCheckout s).2.out =
      s.out ++ notice ++
        specReceipt (specLines s.heap s.cart) (specSubtotal s.heap s.cart)
          (specShippingFee s.heap s.cart) (specTotal s.heap s.cart)
          (processCheckout s).2.customer.balance) ∧
    specTotal s.heap s.cart =
      Dbl.add (Dbl.sum ((specLines s.heap s.cart).map fun l => l.2.2))
        (specShippingFee s.heap s.cart) := by
  obtain ⟨hne, _, _, hs⟩ := processCheckout_ok_inv s h
  refine ⟨hne, ?_, ?_, ?_⟩
  · rw [hs, total_eq_spec]
  · obtain ⟨notice, hn⟩ := shipItems_appends (reduceLoop s.cart.items s.heap).2
      (s.cart.Shipping s.heap) s.out
    refine ⟨notice, ?_⟩
    rw [hs]
    simp only [printReceipt_eq_spec, hn, total_eq_spec, calculateSubtotal_eq_spec,
      shippingFee_eq_spec]
    rw [specLines_congr s.heap _ s.cart (reduceLoop_sameEntry s.cart.items s.heap)]
  · simp [specTotal, specSubtotal, specLines, List.map_map, Function.comp_def]

set_option maxRecDepth 100000 in
/-- C1 at the worked scenario: the amount is 502. -/
theorem C1_charged_amount_witness :
    (processCheckout (scenarioCart 20000)).1 = none ∧
    specTotal (scenarioCart 20000).heap (scenarioCart 20000).cart = Dbl.ofInt 502 ∧
    ((scenarioCart 20000).cart.items ≠ [] ∧
    (processCheckout (scenarioCart 20000)).2.customer.balance
      = Dbl.sub (scenarioCart 20000).customer.balance
          (specTotal (scenarioCart 20000).heap (scenarioCart 20000).cart) ∧
    (∃ notice, (processCheckout (scenarioCart 20000)).2.out =
      (scenarioCart 20000).out ++ notice ++
        specReceipt (specLines (scenarioCart 20000).heap (scenarioCart 20000).cart)
          (specSubtotal (scenarioCart 20000).heap (scenarioCart 20000).cart)
          (specShippingFee (scenarioCart 20000).heap (scenarioCart 20000).cart)
          (specTotal (scenarioCart 20000).heap (scenarioCart 20000).cart)
          (processCheckout (scenarioCart 20000)).2.customer.balance) ∧
    specTotal (scenarioCart 20000).heap (scenarioCart 20000).cart =
      Dbl.add
        (Dbl.sum ((specLines (scenarioCart 20000).heap (scenarioCart 20000).cart).map
          fun l => l.2.2))
        (specShippingFee (scenarioCart 20000).heap (scenarioCart 20000).cart)) :=
  ⟨by decide, by decide, C1_charged_amount (scenarioCart 20000) (by decide)⟩

set_option maxRecDepth 100000 in
/-- C2: in the worked scenario (Cheese: price 100, stock 10, shippable, 200 g;
Biscuits: price 150, stock 3, not shippable; balance 20000) both `addItem`
calls succeed whatever the time, and `processCheckout` then succeeds with
subtotal 500, shipping fee 2, total 502 and a balance of 19498 after the
charge; the receipt prints exactly these amounts and the stocks go down to 8
and 1. -/
theorem C2_worked_scenario (now1 now2 : Int) :
    ShoppingCart.addItem (scenario 20000) now1 0 2
        = (none, { scenario 20000 with cart := ⟨[⟨0, 2⟩]⟩ }) ∧
    ShoppingCart.addItem { scenario 20000 with cart := ⟨[⟨0, 2⟩]⟩ } now2 1 2
        = (none, scenarioCart 20000) ∧
    (processCheckout (scenarioCart 20000)).1 = none ∧
    (scenarioCart 20000).cart.calculateSubtotal (scenarioCart 20000).heap = Dbl.ofInt 500 ∧
    shippingFee (scenarioCart 20000).heap (scenarioCart 20000).cart = Dbl.ofInt 2 ∧
    total (scenarioCart 20000).heap (scenarioCart 20000).cart = Dbl.ofInt 502 ∧
    (processCheckout (scenarioCart 20000)).2.customer.balance = Dbl.ofInt 19498 ∧
    ((processCheckout (scenarioCart 20000)).2.heap 0).quantity = 8 ∧
    ((processCheckout (scenarioCart 20000)).2.heap 1).quantity = 1 ∧
    (processCheckout (scenarioCart 20000)).2.out =
      [Tok.str "** Shipment notice **", Tok.chr '\n',
       Tok.str "1x ", Tok.str "Cheese", Tok.str "    ", Tok.dbl (Dbl.ofInt 200), Tok.str "g",
       Tok.chr '\n',
       Tok.str "Total package weight ", Tok.dbl (Dbl.div (Dbl.ofInt 200) (Dbl.ofInt 1000)),
       Tok.str "kg", Tok.chr '\n', Tok.chr '\n',
       Tok.str "** Checkout receipt **", Tok.chr '\n',
       Tok.int 2, Tok.str "x ", Tok.str "Cheese", Tok.str "    ", Tok.dbl (Dbl.ofInt 200),
       Tok.chr '\n',
       Tok.int 2, Tok.str "x ", Tok.str "Biscuits", Tok.str "    ", Tok.dbl (Dbl.ofInt 300),
       Tok.chr '\n',
       Tok.str "---", Tok.chr '\n',
       Tok.str "Subtotal    ", Tok.dbl (Dbl.ofInt 500), Tok.chr '\n',
       Tok.str "Shipping    ", Tok.dbl (Dbl.ofInt 2), Tok.chr '\n',
       Tok.str "Amount    ", Tok.dbl (Dbl.ofInt 502), Tok.chr '\n',
       Tok.str "Remaining balance: ", Tok.dbl (Dbl.ofInt 19498), Tok.chr '\n'] := by
  refine ⟨?_, ?_, by decide, by decide, by decide, by decide, by decide, by decide, by decide,
    by decide⟩
  · simp [ShoppingCart.addItem, scenario, catalog, cheese, Product.checkAvailable,
      Product.checkExpired, Product.new, Product.setShippable]
  · simp [ShoppingCart.addItem, scenario, scenarioCart, catalog, biscuits, Product.checkAvailable,
      Product.checkExpired, Product.new]

/-- C3: `processCheckout` on a cart with no lines throws the empty-cart
exception and leaves the whole state (output, every product, the customer, the
cart) as it was. -/
theorem C3_empty_cart (s : State) (h : s.cart.items = []) :
    processCheckout s = (some ⟨ErrKind.emptyCart, "Cannot checkout with empty cart"⟩, s) :=
  processCheckout_of_empty s h

/-- C3 at the scenario's customer and catalog with an empty cart. -/
theorem C3_empty_cart_witness :
    (scenario 20000).cart.items = [] ∧
    processCheckout (scenario 20000)
      = (some ⟨ErrKind.emptyCart, "Cannot checkout with empty cart"⟩, scenario 20000) :=
  ⟨rfl, C3_empty_cart (scenario 20000) rfl⟩

/-- C4: when the cart is not empty and the balance is strictly less than the
computed total, `processCheckout` throws the insufficient-funds exception and
leaves the whole state as it was: the balance is unchanged and no stock is
reduced. -/
theorem C4_insufficient_funds (s : State) (hne : s.cart.items ≠ [])
    (hlt : Dbl.lt s.customer.balance (total s.heap s.cart) = true) :
    processCheckout s =
      (some ⟨ErrKind.insufficientFunds, "Insufficient balance for " ++ s.customer.name⟩, s) :=
  processCheckout_of_gt s hne (by rw [Dbl.gt_eq_lt]; exact hlt)

set_option maxRecDepth 100000 in
/-- C4 at the example of the specification: balance 10 against a total of 502. -/
theorem C4_insufficient_funds_witness :
    (scenarioCart 10).cart.items ≠ [] ∧
    Dbl.lt (scenarioCart 10).customer.balance
      (total (scenarioCart 10).heap (scenarioCart 10).cart) = true ∧
    total (scenarioCart 10).heap (scenarioCart 10).cart = Dbl.ofInt 502 ∧
    (scenarioCart 10).customer.balance = Dbl.ofInt 10 ∧
    processCheckout (scenarioCart 10) =
      (some ⟨ErrKind.insufficientFunds, "Insufficient balance for John Doe"⟩, scenarioCart 10) :=
  ⟨by decide, by decide, by decide, rfl,
    C4_insufficient_funds (scenarioCart 10) (by decide) (by decide)⟩

set_option maxRecDepth 100000 in
/-- C5, as stated, fails: after `addItem(Cheese, 6)` twice (stock 10, both calls
admitted) `processCheckout` throws the insufficient-stock exception at the
second line, yet the customer has been charged 1204 and the stock of Cheese has
gone down from 10 to 4. -/
theorem C5_counterexample :
    ShoppingCart.addItem (scenario 20000) 0 0 6
      = (none, { scenario 20000 with cart := ⟨[⟨0, 6⟩]⟩ }) ∧
    ShoppingCart.addItem { scenario 20000 with cart := ⟨[⟨0, 6⟩]⟩ } 0 0 6
      = (none, twiceCheese) ∧
    (processCheckout twiceCheese).1
      = some ⟨ErrKind.insufficientStock, "Not enough stock for Cheese"⟩ ∧
    twiceCheese.customer.balance = Dbl.ofInt 20000 ∧
    (processCheckout twiceCheese).2.customer.balance = Dbl.ofInt 18796 ∧
    (processCheckout twiceCheese).2.customer.balance ≠ twiceCheese.customer.balance ∧
    (twiceCheese.heap 0).quantity = 10 ∧
    ((processCheckout twiceCheese).2.heap 0).quantity = 4 := by
  refine ⟨?_, ?_, by decide, by decide, by decide, by decide, by decide, by decide⟩
  · simp [ShoppingCart.addItem, scenario, catalog, cheese, Product.checkAvailable,
      Product.checkExpired, Product.new, Product.setShippable]
  · simp [ShoppingCart.addItem, scenario, twiceCheese, catalog, cheese, Product.checkAvailable,
      Product.checkExpired, Product.new, Product.setShippable]

/-- C5, amended: when `processCheckout` fails at the empty-cart or at the
insufficient-funds stage, no effect is applied: the state after the call, with
the customer's balance and every product's stock, is the state before it. -/
theorem C5_atomic_before_settlement (s : State) (ex : Exception)
    (h : (processCheckout s).1 = some ex)
    (hk : ex.kind = ErrKind.emptyCart ∨ ex.kind = ErrKind.insufficientFunds) :
    (processCheckout s).2 = s := by
  by_cases hne : s.cart.items = []
  · rw [processCheckout_of_empty s hne]
  · cases hgt : Dbl.gt (total s.heap s.cart) s.customer.balance with
    | true => rw [processCheckout_of_gt s hne hgt]
    | false =>
      rw [processCheckout_of_not_gt s hne hgt] at h
      rcases hr : reduceLoop s.cart.items s.heap with ⟨_ | ex2, h2⟩
      · rw [hr] at h
        simp at h
      · rw [hr] at h
        have hex : ex2 = ex := by simpa using h
        have hkind := reduceLoop_kind s.cart.items s.heap ex2 (by rw [hr])
        rw [hex] at hkind
        rcases hk with hk | hk <;> rw [hk] at hkind <;> cases hkind

set_option maxRecDepth 100000 in
/-- C5 amended, at the scenario with a balance of 10. -/
theorem C5_atomic_before_settlement_witness :
    (processCheckout (scenarioCart 10)).1
      = some ⟨ErrKind.insufficientFunds, "Insufficient balance for John Doe"⟩ ∧
    (processCheckout (scenarioCart 10)).2 = scenarioCart 10 :=
  ⟨by decide,
    C5_atomic_before_settlement (scenarioCart 10)
      ⟨ErrKind.insufficientFunds, "Insufficient balance for John Doe"⟩ (by decide)
      (Or.inr rfl)⟩

set_option maxRecDepth 100000 in
/-- C6, as stated, fails: with a stock of `INT_MAX` and a line asking for `-1`
pieces (a line `addItem` admits), the cart is not empty, the total `-50` is
within the balance `0` and the one stock reduction does not throw;
`processCheckout` returns normally, but the subtraction overflows and the stock
left is `INT_MIN`, not the old stock minus the requested quantity. -/
theorem C6_counterexample :
    ShoppingCart.addItem { fullStock with cart := ⟨[]⟩ } 0 0 (-1) = (none, fullStock) ∧
    fullStock.cart.items ≠ [] ∧
    Dbl.le (total fullStock.heap fullStock.cart) fullStock.customer.balance = true ∧
    (reduceLoop fullStock.cart.items fullStock.heap).1 = none ∧
    (processCheckout fullStock).1 = none ∧
    (fullStock.heap 0).quantity = INT_MAX ∧
    requested fullStock.cart.items 0 = -1 ∧
    ((processCheckout fullStock).2.heap 0).quantity = INT_MIN ∧
    ((processCheckout fullStock).2.heap 0).quantity
      ≠ (fullStock.heap 0).quantity - requested fullStock.cart.items 0 := by
  refine ⟨?_, by decide, by decide, by decide, by decide, by decide, by decide, by decide,
    by decide⟩
  simp [ShoppingCart.addItem, fullStock, Product.checkAvailable, Product.checkExpired,
    Product.new, INT_MAX]

/-- C6, amended: for a non-empty cart with total `<= balance` whose stock
reductions all succeed and stay within the `int` range (for every line, the
stock of its product minus the quantities of the lines up to and including it
that reference the same product is at most `INT_MAX`), `processCheckout`
returns normally, the new balance is the old balance minus the total, every
product's stock is decreased by exactly the sum of the requested quantities of
the lines that reference it, and a product no line references is unchanged. -/
theorem C6_checkout_success (s : State) (hne : s.cart.items ≠ [])
    (hle : Dbl.le (total s.heap s.cart) s.customer.balance = true)
    (hok : (reduceLoop s.cart.items s.heap).1 = none)
    (hno : ∀ pre it post, s.cart.items = pre ++ it :: post →
      (s.heap it.product).quantity - requested (pre ++ [it]) it.product ≤ INT_MAX) :
    (processCheckout s).1 = none ∧
    (processCheckout s).2.customer.balance
      = Dbl.sub s.customer.balance (total s.heap s.cart) ∧
    (∀ p, ((processCheckout s).2.heap p).quantity
      = (s.heap p).quantity - requested s.cart.items p) ∧
    (∀ p, (∀ it ∈ s.cart.items, it.product ≠ p) → (processCheckout s).2.heap p = s.heap p) := by
  have hgt := Dbl.gt_eq_false_of_le _ _ hle
  have hstock := reduceLoop_stock s.cart.items s.heap hok hno
  rw [processCheckout_of_not_gt s hne hgt]
  rcases hr : reduceLoop s.cart.items s.heap with ⟨_ | ex, h2⟩
  · rw [hr] at hstock
    refine ⟨rfl, rfl, hstock, ?_⟩
    intro p hp
    have hs := reduceLoop_sameEntry s.cart.items s.heap p
    rw [hr] at hs
    apply Product.sameEntry_of_quantity_eq hs
    have hq := hstock p
    rw [requested_eq_zero _ _ hp] at hq
    simpa using hq
  · rw [hr] at hok
    simp at hok

set_option maxRecDepth 100000 in
/-- C6 amended, at the worked scenario: Cheese goes from 10 to 8, Biscuits from
3 to 1, the balance from 20000 to 19498. -/
theorem C6_checkout_success_witness :
    (scenarioCart 20000).cart.items ≠ [] ∧
    Dbl.le (total (scenarioCart 20000).heap (scenarioCart 20000).cart)
      (scenarioCart 20000).customer.balance = true ∧
    (reduceLoop (scenarioCart 20000).cart.items (scenarioCart 20000).heap).1 = none ∧
    ((processCheckout (scenarioCart 20000)).1 = none ∧
    (processCheckout (scenarioCart 20000)).2.customer.balance
      = Dbl.sub (scenarioCart 20000).customer.balance
          (total (scenarioCart 20000).heap (scenarioCart 20000).cart) ∧
    (∀ p, ((processCheckout (scenarioCart 20000)).2.heap p).quantity
      = ((scenarioCart 20000).heap p).quantity - requested (scenarioCart 20000).cart.items p) ∧
    (∀ p, (∀ it ∈ (scenarioCart 20000).cart.items, it.product ≠ p) →
      (processCheckout (scenarioCart 20000)).2.heap p = (scenarioCart 20000).heap p)) ∧
    requested (scenarioCart 20000).cart.items 0 = 2 ∧
    requested (scenarioCart 20000).cart.items 1 = 2 := by
  refine ⟨by decide, by decide, by decide,
    C6_checkout_success (scenarioCart 20000) (by decide) (by decide) (by decide) ?_,
    by decide, by decide⟩
  intro pre it post hitems
  have hpre : requested (pre ++ [it]) it.product = it.quantity ∧
      ((scenarioCart 20000).heap it.product).quantity - it.quantity ≤ INT_MAX := by
    rcases pre with _ | ⟨a, _ | ⟨b, pre⟩⟩
    · simp only [scenarioCart, List.nil_append, List.cons.injEq] at hitems
      obtain ⟨rfl, _⟩ := hitems
      exact ⟨by decide, by decide⟩
    · simp only [scenarioCart, List.cons_append, List.nil_append, List.cons.injEq] at hitems
      obtain ⟨rfl, rfl, _⟩ := hitems
      exact ⟨by decide, by decide⟩
    · simp [scenarioCart] at hitems
  rw [hpre.1]
  exact hpre.2

/-- C7: when the requested quantity exceeds the product's stock at call time,
or the product is expired at call time, `addItem` throws the unavailable
exception and leaves the whole state as it was: no line is appended and the
stock is untouched. -/
theorem C7_addItem_unavailable (s : State) (now : Int) (product : Ptr) (quantity : Int)
    (h : quantity > (s.heap product).quantity ∨ (s.heap product).checkExpired now = true) :
    ShoppingCart.addItem s now product quantity =
      (some ⟨ErrKind.itemUnavailable,
        "Product " ++ (s.heap product).name ++ " not available"⟩, s) := by
  have hav : (s.heap product).checkAvailable quantity now = false := by
    rcases h with h | h
    · simp [Product.checkAvailable, not_le.mpr h]
    · simp [Product.checkAvailable, h]
  simp [ShoppingCart.addItem, hav]

/-- C7 at the example of the specification: stock 3, request 5. -/
theorem C7_addItem_unavailable_witness :
    ((5 : Int) > ((scenario 20000).heap 1).quantity ∨
      ((scenario 20000).heap 1).checkExpired 0 = true) ∧
    ((scenario 20000).heap 1).quantity = 3 ∧
    ShoppingCart.addItem (scenario 20000) 0 1 5 =
      (some ⟨ErrKind.itemUnavailable, "Product Biscuits not available"⟩, scenario 20000) :=
  ⟨Or.inl (by decide), by decide,
    C7_addItem_unavailable (scenario 20000) 0 1 5 (Or.inl (by decide))⟩

/-- C8: when `checkAvailable(quantity)` holds, `addItem` returns normally, the
cart's lines are the previous lines in their order followed by the one new line
(product, quantity), and nothing else changes: in particular every product,
with its stock, is as before. -/
theorem C8_addItem_appends (s : State) (now : Int) (product : Ptr) (quantity : Int)
    (h : (s.heap product).checkAvailable quantity now = true) :
    (ShoppingCart.addItem s now product quantity).1 = none ∧
    (ShoppingCart.addItem s now product quantity).2.cart.items
      = s.cart.items ++ [⟨product, quantity⟩] ∧
    (ShoppingCart.addItem s now product quantity).2.heap = s.heap ∧
    (ShoppingCart.addItem s now product quantity).2.customer = s.customer ∧
    (ShoppingCart.addItem s now product quantity).2.out = s.out := by
  simp [ShoppingCart.addItem, h]

/-- C8 at the first `addItem` of the scenario: two pieces of Cheese. -/
theorem C8_addItem_appends_witness :
    ((scenario 20000).heap 0).checkAvailable 2 0 = true ∧
    (ShoppingCart.addItem (scenario 20000) 0 0 2).1 = none ∧
    (ShoppingCart.addItem (scenario 20000) 0 0 2).2.cart.items
      = (scenario 20000).cart.items ++ [⟨0, 2⟩] ∧
    (ShoppingCart.addItem (scenario 20000) 0 0 2).2.heap = (scenario 20000).heap ∧
    (ShoppingCart.addItem (scenario 20000) 0 0 2).2.customer = (scenario 20000).customer ∧
    (ShoppingCart.addItem (scenario 20000) 0 0 2).2.out = (scenario 20000).out :=
  ⟨by decide, C8_addItem_appends (scenario 20000) 0 0 2 (by decide)⟩

/-- C9: when the amount exceeds the stock, `reduceQuantity` throws the
insufficient-stock exception and leaves every field of the product, the stock
included, as it was. -/
theorem C9_reduceQuantity_fails (p : Product) (amount : Int) (h : amount > p.quantity) :
    p.reduceQuantity amount =
      (some ⟨ErrKind.insufficientStock, "Not enough stock for " ++ p.name⟩, p) := by
  simp [Product.reduceQuantity, h]

/-- C9 at Biscuits: stock 3, amount 5. -/
theorem C9_reduceQuantity_fails_witness :
    (5 : Int) > biscuits.quantity ∧
    biscuits.reduceQuantity 5 =
      (some ⟨ErrKind.insufficientStock, "Not enough stock for Biscuits"⟩, biscuits) :=
  ⟨by decide, C9_reduceQuantity_fails biscuits 5 (by decide)⟩

/-- C10, as stated, fails: a product whose stock is `INT_MAX` and the `int`
amount `-1` pass the guard of `reduceQuantity`, the subtraction overflows, and
the stock left behind is `INT_MIN`: negative, and not the old stock minus the
amount. -/
theorem C10_counterexample :
    0 ≤ (Product.new "Biscuits" (Dbl.ofInt 150) INT_MAX).quantity ∧
    isInt32 (Product.new "Biscuits" (Dbl.ofInt 150) INT_MAX).quantity ∧
    isInt32 (-1) ∧
    ((Product.new "Biscuits" (Dbl.ofInt 150) INT_MAX).reduceQuantity (-1)).1 = none ∧
    ((Product.new "Biscuits" (Dbl.ofInt 150) INT_MAX).reduceQuantity (-1)).2.quantity = INT_MIN ∧
    ¬ (0 ≤ ((Product.new "Biscuits" (Dbl.ofInt 150) INT_MAX).reduceQuantity (-1)).2.quantity) ∧
    ((Product.new "Biscuits" (Dbl.ofInt 150) INT_MAX).reduceQuantity (-1)).2.quantity
      ≠ (Product.new "Biscuits" (Dbl.ofInt 150) INT_MAX).quantity - (-1) := by
  decide

/-- C10, amended: for a product with stock `>= 0` and an amount whose
subtraction from the stock does not exceed `INT_MAX`, the stock after
`reduceQuantity` is still `>= 0` whether it throws or not, and when it does not
throw the new stock is exactly the old stock minus the amount. -/
theorem C10_stock_nonneg (p : Product) (amount : Int) (h0 : 0 ≤ p.quantity)
    (hno : p.quantity - amount ≤ INT_MAX) :
    0 ≤ (p.reduceQuantity amount).2.quantity ∧
    ((p.reduceQuantity amount).1 = none →
      (p.reduceQuantity amount).2.quantity = p.quantity - amount) := by
  unfold Product.reduceQuantity
  by_cases hgt : amount > p.quantity
  · simp [hgt, h0]
  · have hw : wrapInt (p.quantity - amount) = p.quantity - amount := by
      unfold wrapInt
      unfold INT_MAX at hno
      omega
    simp only [hgt, if_false, hw, true_implies, and_true]
    omega

/-- C10 amended, at Biscuits (stock 3) reduced by 2 and by 5. -/
theorem C10_stock_nonneg_witness :
    (0 ≤ biscuits.quantity ∧ biscuits.quantity - 2 ≤ INT_MAX) ∧
    (0 ≤ (biscuits.reduceQuantity 2).2.quantity ∧
      ((biscuits.reduceQuantity 2).1 = none →
        (biscuits.reduceQuantity 2).2.quantity = biscuits.quantity - 2)) ∧
    (biscuits.reduceQuantity 2).2.quantity = 1 :=
  ⟨by decide, C10_stock_nonneg biscuits 2 (by decide) (by decide), by decide⟩

set_option maxRecDepth 100000 in
/-- C11, as stated, fails in its last part: a customer with a balance of
`2 ^ 1023` who is charged `-(2 ^ 1023)` is accepted and is left with a balance
of `+infinity`; charged that balance, the customer is accepted again (the
amount equals the balance) and is left with `inf - inf = NaN`, not `0`. -/
theorem C11_counterexample :
    ((Customer.mk "John Doe" (Dbl.fin ⟨1, 1023⟩)).Insufficient (Dbl.fin ⟨-1, 1023⟩)).1 = none ∧
    ((Customer.mk "John Doe" (Dbl.fin ⟨1, 1023⟩)).Insufficient (Dbl.fin ⟨-1, 1023⟩)).2
      = Customer.mk "John Doe" (Dbl.inf false) ∧
    ((Customer.mk "John Doe" (Dbl.inf false)).Insufficient (Dbl.inf false)).1 = none ∧
    ((Customer.mk "John Doe" (Dbl.inf false)).Insufficient (Dbl.inf false)).2.balance
      = Dbl.nan ∧
    ((Customer.mk "John Doe" (Dbl.inf false)).Insufficient (Dbl.inf false)).2.balance
      ≠ Dbl.ofInt 0 := by
  decide

/-- C11, amended: the charge operation `Customer::Insufficient` throws the
insufficient-funds exception exactly when `amount > balance`, and then leaves
the customer unchanged; otherwise it returns normally and the new balance is
`balance - amount`.  An amount equal to the balance is always accepted, and
when the balance is finite it leaves a balance of `0`. -/
theorem C11_charge (c : Customer) (amount : Dbl) :
    ((c.Insufficient amount).1
        = some ⟨ErrKind.insufficientFunds, "Insufficient balance for " ++ c.name⟩
      ↔ Dbl.gt amount c.balance = true) ∧
    ((c.Insufficient amount).1 = none ↔ Dbl.gt amount c.balance = false) ∧
    (Dbl.gt amount c.balance = true → (c.Insufficient amount).2 = c) ∧
    (Dbl.gt amount c.balance = false →
      (c.Insufficient amount).2 = { c with balance := Dbl.sub c.balance amount }) ∧
    (c.Insufficient c.balance).1 = none ∧
    (∀ x, c.balance = Dbl.fin x → (c.Insufficient c.balance).2.balance = Dbl.ofInt 0) ∧
    (∀ x y, c.balance = Dbl.fin x → amount = Dbl.fin y →
      Dbl.gt amount c.balance = false → Dbl.lt amount c.balance = false →
      (c.Insufficient amount).2.balance = Dbl.ofInt 0) := by
  have hself : Dbl.gt c.balance c.balance = false := by
    cases c.balance with
    | fin x => simp [Dbl.gt, Dyadic.gt]
    | inf s => cases s <;> rfl
    | nan => rfl
  refine ⟨?_, ?_, ?_, ?_, ?_, ?_, ?_⟩
  · cases hgt : Dbl.gt amount c.balance <;> simp [Customer.Insufficient, hgt]
  · cases hgt : Dbl.gt amount c.balance <;> simp [Customer.Insufficient, hgt]
  · intro hgt
    simp [Customer.Insufficient, hgt]
  · intro hgt
    simp [Customer.Insufficient, hgt]
  · simp [Customer.Insufficient, hself]
  · intro x hx
    simp only [Customer.Insufficient, hself, Bool.false_eq_true, if_false]
    rw [hx]
    exact Dbl.sub_fin_same x
  · intro x y hx hy hgt hlt
    simp only [Customer.Insufficient, hgt, Bool.false_eq_true, if_false]
    rw [hx, hy] at hgt hlt
    rw [hx, hy]
    exact Dbl.sub_fin_eq_zero y x hgt hlt

set_option maxRecDepth 100000 in
/-- C11 amended, at the scenario's customer: 20001 is refused, 20000 is accepted
and leaves 0, 502 is accepted and leaves 19498. -/
theorem C11_charge_witness :
    ((scenario 20000).customer.Insufficient (Dbl.ofInt 20001)).1
      = some ⟨ErrKind.insufficientFunds, "Insufficient balance for John Doe"⟩ ∧
    ((scenario 20000).customer.Insufficient (Dbl.ofInt 20001)).2 = (scenario 20000).customer ∧
    (scenario 20000).customer.balance = Dbl.fin ⟨625, 5⟩ ∧
    ((scenario 20000).customer.Insufficient (scenario 20000).customer.balance).2.balance
      = Dbl.ofInt 0 ∧
    ((scenario 20000).customer.Insufficient (Dbl.ofInt 502)).1 = none ∧
    ((scenario 20000).customer.Insufficient (Dbl.ofInt 502)).2.balance = Dbl.ofInt 19498 :=
  ⟨((C11_charge (scenario 20000).customer (Dbl.ofInt 20001)).1).2 (by decide),
    by decide, by decide,
    (C11_charge (scenario 20000).customer (Dbl.ofInt 20001)).2.2.2.2.2.1 ⟨625, 5⟩ (by decide),
    by decide, by decide⟩

/-- C12: with the current time passed as `now`, `checkExpired` is false for a
product that does not track expiry, whatever the time; for a product that
tracks expiry it is true exactly when `now` is strictly after the stored expiry
instant, hence false at the expiry instant itself, true for an expiry in the
past and false for one in the future. -/
theorem C12_checkExpired (p : Product) (now : Int) :
    (p.isExpired = false → p.checkExpired now = false) ∧
    (p.isExpired = true → (p.checkExpired now = true ↔ now > p.expiryDate)) ∧
    (now = p.expiryDate → p.checkExpired now = false) ∧
    (p.isExpired = true → p.expiryDate < now → p.checkExpired now = true) ∧
    (now < p.expiryDate → p.checkExpired now = false) := by
  refine ⟨?_, ?_, ?_, ?_, ?_⟩
  · intro h
    simp [Product.checkExpired, h]
  · intro h
    simp [Product.checkExpired, h]
  · intro h
    simp [Product.checkExpired, h]
  · intro h hlt
    simp [Product.checkExpired, h, hlt]
  · intro hlt
    simp only [Product.checkExpired]
    split
    · rfl
    · simp only [gt_iff_lt, decide_eq_false_iff_not, not_lt]
      omega

/-- C12 at Cheese with an expiry instant of 100: not expired at 99 and at 100,
expired at 101; and never expired once expiry is not tracked. -/
theorem C12_checkExpired_witness :
    (cheese.setExpired 100 (Dbl.ofInt 200)).checkExpired 99 = false ∧
    (cheese.setExpired 100 (Dbl.ofInt 200)).checkExpired 100 = false ∧
    ((cheese.setExpired 100 (Dbl.ofInt 200)).checkExpired 101 = true
      ↔ (101 : Int) > (cheese.setExpired 100 (Dbl.ofInt 200)).expiryDate) ∧
    (cheese.setExpired 100 (Dbl.ofInt 200)).checkExpired 101 = true ∧
    cheese.checkExpired 101 = false :=
  ⟨by decide, by decide,
    (C12_checkExpired (cheese.setExpired 100 (Dbl.ofInt 200)) 101).2.1 rfl,
    by decide, by decide⟩

set_option maxRecDepth 100000 in
/-- C14, as stated, fails in its second half: with three lines of one piece
priced 0.1, 0.2 and 0.3, the subtotal of the whole cart is
`0.6000000000000001` while the subtotal of the first line plus the subtotal of
the other two is `0.6`. -/
theorem C14_counterexample :
    ShoppingCart.calculateSubtotal tenths ⟨[⟨0, 1⟩] ++ [⟨1, 1⟩, ⟨2, 1⟩]⟩
      = Dbl.fin ⟨1351079888211149, -51⟩ ∧
    Dbl.add (ShoppingCart.calculateSubtotal tenths ⟨[⟨0, 1⟩]⟩)
        (ShoppingCart.calculateSubtotal tenths ⟨[⟨1, 1⟩, ⟨2, 1⟩]⟩)
      = Dbl.fin ⟨5404319552844595, -53⟩ ∧
    ShoppingCart.calculateSubtotal tenths ⟨[⟨0, 1⟩] ++ [⟨1, 1⟩, ⟨2, 1⟩]⟩
      ≠ Dbl.add (ShoppingCart.calculateSubtotal tenths ⟨[⟨0, 1⟩]⟩)
          (ShoppingCart.calculateSubtotal tenths ⟨[⟨1, 1⟩, ⟨2, 1⟩]⟩) := by
  decide

/-- C14, amended: `calculateSubtotal` returns the sum, accumulated in cart
order, of price times quantity over the cart lines, `0` for the empty cart;
and the subtotal of `xs ++ ys` is the subtotal of `xs` to which the line totals
of `ys` are added one after the other in their order. -/
theorem C14_subtotal (h : Heap) (xs ys : List CartItem) :
    ShoppingCart.calculateSubtotal h ⟨[]⟩ = Dbl.ofInt 0 ∧
    ShoppingCart.calculateSubtotal h ⟨xs⟩
      = Dbl.sum (xs.map fun it => Dbl.mul (h it.product).price (Dbl.ofInt it.quantity)) ∧
    ShoppingCart.calculateSubtotal h ⟨xs ++ ys⟩
      = (ys.map fun it => Dbl.mul (h it.product).price (Dbl.ofInt it.quantity)).foldl Dbl.add
          (ShoppingCart.calculateSubtotal h ⟨xs⟩) := by
  refine ⟨rfl, ?_, ?_⟩
  · exact calculateSubtotal_eq_spec h ⟨xs⟩
  · simp [ShoppingCart.calculateSubtotal, List.foldl_map, CartItem.totalPrice]

/-- C15: `Shipping()` returns the products of the cart lines whose product is
shippable, one entry per such line whatever the line's quantity, in cart order;
its length is the number of shippable lines and a shippable product occurs in
it as many times as lines reference it. -/
theorem C15_shipping (h : Heap) (cart : ShoppingCart) :
    cart.Shipping h
      = (cart.items.filter fun it => (h it.product).isShippable).map CartItem.product ∧
    (cart.Shipping h).length = cart.items.countP (fun it => (h it.product).isShippable) ∧
    (∀ p, (h p).isShippable = true →
      (cart.Shipping h).count p = cart.items.countP (fun it => it.product = p)) := by
  have hs := Shipping_eq_filter h cart
  refine ⟨hs, ?_, ?_⟩
  · rw [hs, List.length_map, List.countP_eq_length_filter]
  · intro p hp
    rw [hs]
    generalize cart.items = items
    induction items with
    | nil => rfl
    | cons it rest ih =>
      by_cases hit : it.product = p
      · subst hit
        simp [List.filter_cons, hp, List.countP_cons, ih]
      · by_cases hsh : (h it.product).isShippable = true
        · simp [List.filter_cons, hsh, List.countP_cons, hit, ih, List.count_cons]
        · simp [List.filter_cons, hsh, List.countP_cons, hit, ih]

set_option maxRecDepth 100000 in
/-- C15 at a cart with two lines of Cheese (3 and 4 pieces) around one line of
Biscuits: Cheese is listed twice, Biscuits not at all. -/
theorem C15_shipping_witness :
    ShoppingCart.Shipping catalog ⟨[⟨0, 3⟩, ⟨1, 1⟩, ⟨0, 4⟩]⟩ = [0, 0] ∧
    (catalog 0).isShippable = true ∧
    (ShoppingCart.Shipping catalog ⟨[⟨0, 3⟩, ⟨1, 1⟩, ⟨0, 4⟩]⟩).count 0
      = (ShoppingCart.mk [⟨0, 3⟩, ⟨1, 1⟩, ⟨0, 4⟩]).items.countP (fun it => it.product = 0) :=
  ⟨by decide, by decide,
    (C15_shipping catalog ⟨[⟨0, 3⟩, ⟨1, 1⟩, ⟨0, 4⟩]⟩).2.2 0 (by decide)⟩

set_option maxRecDepth 100000 in
/-- C17, as stated, fails: `addItem(Cheese, 0)` and `addItem(Biscuits, -1)` are
both admitted, so a cart reachable from the empty cart has lines of quantity
`0` and `-1`. -/
theorem C17_counterexample :
    (scenario 20000).cart.items = [] ∧
    (addItems (scenario 20000) [(0, 0, 0), (0, 1, -1)]).1 = none ∧
    (addItems (scenario 20000) [(0, 0, 0), (0, 1, -1)]).2.cart.items = [⟨0, 0⟩, ⟨1, -1⟩] ∧
    ¬ (∀ it ∈ (addItems (scenario 20000) [(0, 0, 0), (0, 1, -1)]).2.cart.items,
        it.quantity > 0) := by
  decide

/-- C17, amended: a cart reachable from the empty cart by admitted `addItem`
calls holds one line per call, in the order of the calls, and every line has a
requested quantity at most the stock of its product and was available
(`checkAvailable`: stock sufficient and product not expired) at the time of
its call; the stocks are as before the calls.  The quantity may be zero or
negative. -/
theorem C17_line_within_stock (s0 : State) (calls : List (Int × Ptr × Int))
    (h0 : s0.cart.items = []) (hadd : (addItems s0 calls).1 = none) :
    (addItems s0 calls).2.cart.items = calls.map (fun c => ⟨c.2.1, c.2.2⟩) ∧
    (addItems s0 calls).2.heap = s0.heap ∧
    ∀ c ∈ calls,
      c.2.2 ≤ (s0.heap c.2.1).quantity ∧
      (s0.heap c.2.1).checkExpired c.1 = false ∧
      (s0.heap c.2.1).checkAvailable c.2.2 c.1 = true := by
  obtain ⟨hstate, hall⟩ := addItems_ok s0 calls hadd
  refine ⟨?_, ?_, ?_⟩
  · rw [hstate, h0]
    rfl
  · rw [hstate]
  · intro c hc
    have hav := hall c hc
    refine ⟨?_, ?_, hav⟩
    · simp only [Product.checkAvailable, Bool.and_eq_true, decide_eq_true_eq] at hav
      exact hav.1
    · simp only [Product.checkAvailable, Bool.and_eq_true, Bool.not_eq_true'] at hav
      exact hav.2

set_option maxRecDepth 100000 in
/-- C17 amended, at a Cheese that expires at time 100: a call for `0` pieces at
time 100 and a call for `-1` Biscuits at time 500 are admitted and give the
lines `(Cheese, 0)` and `(Biscuits, -1)`; a call for Cheese at time 101 is
refused. -/
theorem C17_line_within_stock_witness :
    { expiringCheese with cart := ⟨[]⟩ }.cart.items = [] ∧
    (addItems { expiringCheese with cart := ⟨[]⟩ } [(100, 0, 0), (500, 1, -1)]).1 = none ∧
    ((addItems { expiringCheese with cart := ⟨[]⟩ } [(100, 0, 0), (500, 1, -1)]).2.cart.items
        = [(100, 0, 0), (500, 1, -1)].map (fun c => ⟨c.2.1, c.2.2⟩) ∧
      (addItems { expiringCheese with cart := ⟨[]⟩ } [(100, 0, 0), (500, 1, -1)]).2.heap
        = expiringCheese.heap ∧
      ∀ c ∈ [((100 : Int), (0 : Ptr), (0 : Int)), (500, 1, -1)],
        c.2.2 ≤ (expiringCheese.heap c.2.1).quantity ∧
        (expiringCheese.heap c.2.1).checkExpired c.1 = false ∧
        (expiringCheese.heap c.2.1).checkAvailable c.2.2 c.1 = true) ∧
    (addItems { expiringCheese with cart := ⟨[]⟩ } [(101, 0, 0)]).1
      = some ⟨ErrKind.itemUnavailable, "Product Cheese not available"⟩ :=
  ⟨rfl, by decide,
    C17_line_within_stock { expiringCheese with cart := ⟨[]⟩ } [(100, 0, 0), (500, 1, -1)] rfl
      (by decide),
    by decide⟩

/-- C18: when the cart is not empty, the total is within the balance and the
stock reduction of the line `it` is the first to fail (those of the lines
`pre` before it all succeed), `processCheckout` throws the insufficient-stock
exception with the balance already reduced by the full total and the heap as
the reductions of the lines before `it` left it; nothing is printed and the
cart is unchanged. -/
theorem C18_charge_before_stock (s : State) (pre : List CartItem) (it : CartItem)
    (post : List CartItem) (hitems : s.cart.items = pre ++ it :: post)
    (hle : Dbl.le (total s.heap s.cart) s.customer.balance = true)
    (hpre : (reduceLoop pre s.heap).1 = none)
    (hfail : it.quantity > ((reduceLoop pre s.heap).2 it.product).quantity) :
    (processCheckout s).1
      = some ⟨ErrKind.insufficientStock, "Not enough stock for " ++ (s.heap it.product).name⟩ ∧
    (processCheckout s).2.customer
      = { s.customer with balance := Dbl.sub s.customer.balance (total s.heap s.cart) } ∧
    (processCheckout s).2.heap = (reduceLoop pre s.heap).2 ∧
    (processCheckout s).2.out = s.out ∧
    (processCheckout s).2.cart = s.cart := by
  have hne : s.cart.items ≠ [] := by
    rw [hitems]
    simp
  have hgt := Dbl.gt_eq_false_of_le _ _ hle
  have hname := Product.sameEntry_name (reduceLoop_sameEntry pre s.heap it.product)
  rw [processCheckout_of_not_gt s hne hgt, hitems,
    reduceLoop_append_fail pre it post s.heap hpre hfail, hname]
  exact ⟨rfl, rfl, rfl, rfl, rfl⟩

set_option maxRecDepth 100000 in
/-- C18 at the cart with two lines of 6 pieces of Cheese (stock 10): the second
line fails, the balance is down from 20000 to 18796 and the stock of Cheese
stays at 4. -/
theorem C18_charge_before_stock_witness :
    twiceCheese.cart.items = [⟨0, 6⟩] ++ ⟨0, 6⟩ :: [] ∧
    Dbl.le (total twiceCheese.heap twiceCheese.cart) twiceCheese.customer.balance = true ∧
    (reduceLoop [⟨0, 6⟩] twiceCheese.heap).1 = none ∧
    (6 : Int) > ((reduceLoop [⟨0, 6⟩] twiceCheese.heap).2 0).quantity ∧
    ((processCheckout twiceCheese).1
      = some ⟨ErrKind.insufficientStock, "Not enough stock for Cheese"⟩ ∧
    (processCheckout twiceCheese).2.customer
      = { twiceCheese.customer with
          balance := Dbl.sub twiceCheese.customer.balance
            (total twiceCheese.heap twiceCheese.cart) } ∧
    (processCheckout twiceCheese).2.heap = (reduceLoop [⟨0, 6⟩] twiceCheese.heap).2 ∧
    (processCheckout twiceCheese).2.out = twiceCheese.out ∧
    (processCheckout twiceCheese).2.cart = twiceCheese.cart) ∧
    (processCheckout twiceCheese).2.customer.balance = Dbl.ofInt 18796 ∧
    ((processCheckout twiceCheese).2.heap 0).quantity = 4 :=
  ⟨rfl, by decide, by decide, by decide,
    C18_charge_before_stock twiceCheese [⟨0, 6⟩] ⟨0, 6⟩ [] rfl (by decide) (by decide)
      (by decide),
    by decide, by decide⟩

/-- C19: `processCheckout` leaves the cart as it was, whether it throws or not.
Hence after a successful checkout the cart is still not empty, and a second
call, when the total is within the balance that is left, charges the same total
again and runs the stock reductions of the same lines again. -/
theorem C19_cart_unchanged (s : State) :
    (processCheckout s).2.cart = s.cart ∧
    ((processCheckout s).1 = none →
      (processCheckout s).2.cart.items ≠ [] ∧
      (Dbl.le (total s.heap s.cart) (processCheckout s).2.customer.balance = true →
        (processCheckout (processCheckout s).2).2.customer.balance
          = Dbl.sub (processCheckout s).2.customer.balance (total s.heap s.cart) ∧
        (processCheckout (processCheckout s).2).2.heap
          = (reduceLoop s.cart.items (processCheckout s).2.heap).2)) := by
  refine ⟨processCheckout_cart s, ?_⟩
  intro hok
  obtain ⟨hne, _, _, hs⟩ := processCheckout_ok_inv s hok
  have hcart := processCheckout_cart s
  have hne2 : (processCheckout s).2.cart.items ≠ [] := by
    rw [hcart]
    exact hne
  refine ⟨hne2, ?_⟩
  intro hle
  have hheap : (processCheckout s).2.heap = (reduceLoop s.cart.items s.heap).2 := by
    rw [hs]
  have htotal : total (processCheckout s).2.heap (processCheckout s).2.cart
      = total s.heap s.cart := by
    rw [hcart, hheap]
    exact total_congr _ _
      (sameView_of_sameEntry _ _ (reduceLoop_sameEntry s.cart.items s.heap)) s.cart
  have hgt2 : Dbl.gt (total (processCheckout s).2.heap (processCheckout s).2.cart)
      (processCheckout s).2.customer.balance = false := by
    rw [htotal]
    exact Dbl.gt_eq_false_of_le _ _ hle
  rw [processCheckout_of_not_gt _ hne2 hgt2, htotal, hcart]
  rcases reduceLoop s.cart.items (processCheckout s).2.heap with ⟨_ | ex, h2⟩ <;>
    exact ⟨rfl, rfl⟩

set_option maxRecDepth 100000 in
/-- C19 at the worked scenario: after the first checkout the cart still holds
its two lines; the second call charges 502 again (19498 to 18996) and takes two
more pieces of Cheese (8 to 6) before it fails on Biscuits. -/
theorem C19_cart_unchanged_witness :
    (processCheckout (scenarioCart 20000)).2.cart = (scenarioCart 20000).cart ∧
    (processCheckout (scenarioCart 20000)).1 = none ∧
    (processCheckout (processCheckout (scenarioCart 20000)).2).2.customer.balance
      = Dbl.ofInt 18996 ∧
    ((processCheckout (processCheckout (scenarioCart 20000)).2).2.heap 0).quantity = 6 ∧
    (processCheckout (processCheckout (scenarioCart 20000)).2).1
      = some ⟨ErrKind.insufficientStock, "Not enough stock for Biscuits"⟩ :=
  ⟨(C19_cart_unchanged (scenarioCart 20000)).1, by decide, by decide, by decide, by decide⟩

/-- C20: `processCheckout` does not look at expiry.  With the current time an
explicit input, its result is the same at every time; and the exception thrown,
the customer, the output, the cart and every stock it leaves are the same
whatever the expiry data of the products, hence whether or not a product of the
cart is expired when it runs. -/
theorem C20_no_expiry_check (now now' : Int) (s : State) (expiry : Ptr → Bool × Int) :
    processCheckoutAt now s = processCheckoutAt now' s ∧
    (processCheckoutAt now { s with heap := withExpiry s.heap expiry }).1
      = (processCheckoutAt now s).1 ∧
    (processCheckoutAt now { s with heap := withExpiry s.heap expiry }).2.customer
      = (processCheckoutAt now s).2.customer ∧
    (processCheckoutAt now { s with heap := withExpiry s.heap expiry }).2.out
      = (processCheckoutAt now s).2.out ∧
    (processCheckoutAt now { s with heap := withExpiry s.heap expiry }).2.cart
      = (processCheckoutAt now s).2.cart ∧
    (∀ p, ((processCheckoutAt now { s with heap := withExpiry s.heap expiry }).2.heap p).quantity
      = ((processCheckoutAt now s).2.heap p).quantity) := by
  refine ⟨rfl, ?_⟩
  exact processCheckout_congr { s with heap := withExpiry s.heap expiry } s
    (sameView_withExpiry s.heap expiry) (fun _ => rfl) rfl rfl rfl

set_option maxRecDepth 100000 in
/-- C20 at a Cheese that expired at time 100, checked out at time 101: the
product is expired and `addItem` would refuse it, yet `processCheckout` returns
normally, charges 502 and takes the two pieces from the stock, exactly as for
the Cheese without expiry data. -/
theorem C20_no_expiry_check_witness :
    (expiringCheese.heap 0).checkExpired 101 = true ∧
    (ShoppingCart.addItem expiringCheese 101 0 2).1
      = some ⟨ErrKind.itemUnavailable, "Product Cheese not available"⟩ ∧
    (processCheckoutAt 101 expiringCheese).1 = none ∧
    (processCheckoutAt 101 expiringCheese).2.customer.balance = Dbl.ofInt 19498 ∧
    ((processCheckoutAt 101 expiringCheese).2.heap 0).quantity = 8 ∧
    (processCheckoutAt 101
        { scenarioCart 20000 with
          heap := withExpiry (scenarioCart 20000).heap
            (fun p => if p = 0 then (true, 100) else (false, 0)) }).1
      = (processCheckoutAt 101 (scenarioCart 20000)).1 :=
  ⟨by decide, by decide, by decide, by decide, by decide,
    (C20_no_expiry_check 101 0 (scenarioCart 20000)
      (fun p => if p = 0 then (true, 100) else (false, 0))).2.1⟩

end FawryTask
